import Mathlib

/-
  Verification of the CustomZone booking + wallet ledger subsystem.

  Shallow embedding of the file-backed wallet store (walletStore) and of the
  supabase-backed booking route plus tournament counter helpers.  Stateful
  operations become pure functions taking the persisted store and returning
  a result together with the next persisted store (the JS code only persists
  via writeStore; in-memory mutations on failure paths are discarded, which
  is why failure branches return the input store unchanged).  Monetary
  amounts, counters and slot numbers are integers (every amount in the
  system is a whole currency unit; the Number.isFinite and Number.isInteger
  guards of the source cannot fail on this carrier), generated ids and ISO
  timestamps are explicit parameters.  JS string helpers (trim, toLowerCase,
  toUpperCase) are defined over character lists so that every definition
  evaluates by kernel reduction.
-/

namespace CustomZone

/-! ## Wallet store data model (walletStore, file-backed) -/

inductive TxnType where
  | DEBIT
  | CREDIT
deriving DecidableEq, Repr

inductive AdminTxnStatus where
  | AVAILABLE
  | CLAIMED
deriving DecidableEq, Repr

inductive WithdrawalStatus where
  | PENDING
  | PAID
deriving DecidableEq, Repr

structure WalletTxn where
  id : String
  type : TxnType
  amount : ℤ
  note : String
  createdAt : String
deriving DecidableEq, Repr

structure AdminTxn where
  id : String
  txnId : String
  amount : ℤ
  note : String
  status : AdminTxnStatus
  registeredAt : String
  claimedAt : Option String
  claimedByUserId : Option String
  claimedByUsername : Option String
deriving DecidableEq, Repr

structure WithdrawalRequest where
  id : String
  userId : String
  username : String
  amount : ℤ
  upiId : String
  status : WithdrawalStatus
  requestedAt : String
  processedAt : Option String
  note : Option String
deriving DecidableEq, Repr

structure UserWallet where
  userId : String
  balance : ℤ
  txns : List WalletTxn
  withdrawals : List WithdrawalRequest
deriving DecidableEq, Repr

structure WalletStoreFile where
  adminTxns : List AdminTxn
  userWallets : List UserWallet
deriving DecidableEq, Repr

def emptyWalletStore : WalletStoreFile :=
  { adminTxns := [], userWallets := [] }

/-- JS String.prototype.trim: drop whitespace from both ends.  Defined over
the character list so that it evaluates by kernel reduction. -/
def jsTrim (s : String) : String :=
  ⟨((s.data.dropWhile Char.isWhitespace).reverse.dropWhile Char.isWhitespace).reverse⟩

/-- JS String.prototype.toLowerCase over the character list. -/
def jsToLower (s : String) : String :=
  ⟨s.data.map Char.toLower⟩

/-- JS String.prototype.toUpperCase over the character list. -/
def jsToUpper (s : String) : String :=
  ⟨s.data.map Char.toUpper⟩

/-- Embeds normalizeTxnId: trim, strip all whitespace, lowercase. -/
def stripWhitespace (s : String) : String :=
  ⟨s.data.filter (fun c => !c.isWhitespace)⟩

def normalizeTxnId (input : String) : String :=
  jsToLower (stripWhitespace (jsTrim input))

def defaultUserWallet (userId : String) : UserWallet :=
  { userId := userId, balance := 0, txns := [], withdrawals := [] }

/-- Embeds store.userWallets.find by userId. -/
def findWallet (l : List UserWallet) (uid : String) : Option UserWallet :=
  l.find? (fun w => w.userId == uid)

/-- Current balance as read through findOrCreateUserWallet (0 when absent). -/
def balanceOf (s : WalletStoreFile) (uid : String) : ℤ :=
  ((findWallet s.userWallets uid).getD (defaultUserWallet uid)).balance

def txnsOf (s : WalletStoreFile) (uid : String) : List WalletTxn :=
  ((findWallet s.userWallets uid).getD (defaultUserWallet uid)).txns

def withdrawalsOf (s : WalletStoreFile) (uid : String) : List WithdrawalRequest :=
  ((findWallet s.userWallets uid).getD (defaultUserWallet uid)).withdrawals

/-- In-place mutation of the first wallet matching the user id, as done on the
wallet object returned by findOrCreateUserWallet. -/
def updateFirstWallet (uid : String) (f : UserWallet → UserWallet) :
    List UserWallet → List UserWallet
  | [] => []
  | w :: ws => if w.userId == uid then f w :: ws else w :: updateFirstWallet uid f ws

/-- Embeds findOrCreateUserWallet followed by mutating the found (or pushed)
wallet and persisting: update the first matching wallet, or append a mutated
default wallet when none exists. -/
def upsertWallet (s : WalletStoreFile) (uid : String) (f : UserWallet → UserWallet) :
    WalletStoreFile :=
  if s.userWallets.any (fun w => w.userId == uid) then
    { s with userWallets := updateFirstWallet uid f s.userWallets }
  else
    { s with userWallets := s.userWallets ++ [f (defaultUserWallet uid)] }

inductive OpResult where
  | ok
  | fail (reason : String)
deriving DecidableEq, Repr

/-! ## Wallet store operations -/

/-- Embeds walletStore.spendCredits.  freshId and now stand for the generated
txn id and timestamp. -/
def spendCredits (store : WalletStoreFile) (userId : String) (amount : ℤ)
    (note : String) (freshId now : String) : OpResult × WalletStoreFile :=
  let uid := jsTrim userId
  if uid = "" then (.fail "Login required.", store)
  else if amount ≤ 0 then (.fail "Amount must be greater than 0.", store)
  else if balanceOf store uid < amount then (.fail "Not enough balance.", store)
  else
    let txn : WalletTxn :=
      { id := freshId, type := .DEBIT, amount := amount,
        note := if jsTrim note = "" then "Debit" else jsTrim note, createdAt := now }
    (.ok, upsertWallet store uid (fun w =>
      { w with balance := w.balance - amount, txns := txn :: w.txns }))

/-- Embeds walletStore.registerIncomingPayment. -/
def registerIncomingPayment (store : WalletStoreFile) (txnIdInput : String)
    (amount : ℤ) (adminNote : String) (freshId now : String) :
    OpResult × WalletStoreFile :=
  let ntid := normalizeTxnId txnIdInput
  if ntid = "" then (.fail "Transaction ID is required.", store)
  else if amount ≤ 0 then (.fail "Amount must be greater than 0.", store)
  else if store.adminTxns.any (fun e => normalizeTxnId e.txnId == ntid) then
    (.fail "This transaction ID already exists in the system.", store)
  else
    let entry : AdminTxn :=
      { id := freshId, txnId := jsTrim txnIdInput, amount := amount,
        note := if jsTrim adminNote = "" then "Registered by admin" else jsTrim adminNote,
        status := .AVAILABLE, registeredAt := now,
        claimedAt := none, claimedByUserId := none, claimedByUsername := none }
    (.ok, { store with adminTxns := entry :: store.adminTxns })

/-- The updated entry written by a successful claim: status flips to CLAIMED
and the claimant identity is stamped; all other fields are kept. -/
def claimEntry (e : AdminTxn) (uid uname now : String) : AdminTxn :=
  { e with
    status := .CLAIMED
    claimedAt := some now
    claimedByUserId := some uid
    claimedByUsername := if uname = "" then e.claimedByUsername else some uname }

/-- Outcome of the findIndex plus indexed-update on adminTxns inside
claimCreditsByTxnId. -/
inductive ClaimScan where
  | notFound
  | alreadyClaimed
  | claimed (entry : AdminTxn) (updated : List AdminTxn)
deriving DecidableEq, Repr

/-- Embeds store.adminTxns.findIndex over normalized txn ids followed by the
status check and the in-place update of the matched entry. -/
def scanClaim (ntid uid uname now : String) : List AdminTxn → ClaimScan
  | [] => .notFound
  | e :: rest =>
    if normalizeTxnId e.txnId = ntid then
      if e.status = .CLAIMED then .alreadyClaimed
      else .claimed e (claimEntry e uid uname now :: rest)
    else
      match scanClaim ntid uid uname now rest with
      | .notFound => .notFound
      | .alreadyClaimed => .alreadyClaimed
      | .claimed entry updated => .claimed entry (e :: updated)

/-- Embeds walletStore.claimCreditsByTxnId. -/
def claimCreditsByTxnId (store : WalletStoreFile) (userId username txnIdInput : String)
    (freshId now : String) : OpResult × WalletStoreFile :=
  let uid := jsTrim userId
  let uname := jsTrim username
  if uid = "" then (.fail "Login required.", store)
  else
    let ntid := normalizeTxnId txnIdInput
    if ntid = "" then (.fail "Transaction ID is required.", store)
    else
      match scanClaim ntid uid uname now store.adminTxns with
      | .notFound => (.fail "Transaction ID not registered by admin yet.", store)
      | .alreadyClaimed => (.fail "This transaction ID has already been used.", store)
      | .claimed entry updated =>
        let txn : WalletTxn :=
          { id := freshId, type := .CREDIT, amount := entry.amount,
            note := "UPI deposit claimed (Txn ID: " ++ entry.txnId ++ ")",
            createdAt := now }
        (.ok, upsertWallet { store with adminTxns := updated } uid (fun w =>
          { w with balance := w.balance + entry.amount, txns := txn :: w.txns }))

/-- Embeds walletStore.adminCreditWallet. -/
def adminCreditWallet (store : WalletStoreFile) (userId : String) (amount : ℤ)
    (note : String) (freshId now : String) : OpResult × WalletStoreFile :=
  let uid := jsTrim userId
  if uid = "" then (.fail "Valid user is required.", store)
  else if amount ≤ 0 then (.fail "Amount must be greater than 0.", store)
  else
    let txn : WalletTxn :=
      { id := freshId, type := .CREDIT, amount := amount,
        note := if jsTrim note = "" then "Admin prize payout" else jsTrim note,
        createdAt := now }
    (.ok, upsertWallet store uid (fun w =>
      { w with balance := w.balance + amount, txns := txn :: w.txns }))

def MIN_WITHDRAWAL_AMOUNT : ℤ := 200

/-- Embeds walletStore.requestWithdrawal.  reqId and ledgerId stand for the
two generated uuids, now for the shared timestamp.  The Number.isFinite and
Number.isInteger guards of the source cannot fail on the integer carrier used
for amounts and are therefore omitted here. -/
def requestWithdrawal (store : WalletStoreFile) (userId username upiIdInput : String)
    (amount : ℤ) (reqId ledgerId now : String) : OpResult × WalletStoreFile :=
  let uid := jsTrim userId
  let uname := jsTrim username
  if uid = "" then (.fail "Login required.", store)
  else if amount ≤ 0 then (.fail "Enter a valid withdrawal amount.", store)
  else if amount < MIN_WITHDRAWAL_AMOUNT then
    (.fail "Minimum withdrawal is Rs 200.", store)
  else
    let upiId := jsTrim upiIdInput
    if upiId = "" then (.fail "UPI ID is required.", store)
    else if !(upiId.data.contains '@') then
      (.fail "Enter a valid UPI ID (example: name@bank).", store)
    else if balanceOf store uid < amount then (.fail "Not enough balance.", store)
    else
      let request : WithdrawalRequest :=
        { id := reqId, userId := uid,
          username := if uname = "" then "player" else uname,
          amount := amount, upiId := upiId, status := .PENDING,
          requestedAt := now, processedAt := none,
          note := some "Awaiting admin payout" }
      let txn : WalletTxn :=
        { id := ledgerId, type := .DEBIT, amount := amount,
          note := "Withdrawal request of Rs " ++ toString amount ++
            " submitted to " ++ upiId,
          createdAt := now }
      (.ok, upsertWallet store uid (fun w =>
        { w with
          balance := w.balance - amount
          withdrawals := request :: w.withdrawals
          txns := txn :: w.txns }))

/-- Outcome of scanning a list for the withdrawal to mark paid. -/
inductive PaidScan (α : Type) where
  | notFound
  | alreadyPaid
  | updated (upd : α)
deriving DecidableEq, Repr

/-- Embeds wallet.withdrawals.findIndex plus the PAID check and indexed
update inside markWithdrawalPaid. -/
def scanPaidWithdrawals (targetId now : String) :
    List WithdrawalRequest → PaidScan (List WithdrawalRequest)
  | [] => .notFound
  | r :: rest =>
    if r.id == targetId then
      if r.status = .PAID then .alreadyPaid
      else .updated ({ r with status := .PAID, processedAt := some now } :: rest)
    else
      match scanPaidWithdrawals targetId now rest with
      | .notFound => .notFound
      | .alreadyPaid => .alreadyPaid
      | .updated upd => .updated (r :: upd)

/-- Embeds the for-loop over store.userWallets inside markWithdrawalPaid:
the first wallet containing the request decides the outcome. -/
def markPaidWallets (targetId now : String) :
    List UserWallet → PaidScan (List UserWallet)
  | [] => .notFound
  | w :: ws =>
    match scanPaidWithdrawals targetId now w.withdrawals with
    | .alreadyPaid => .alreadyPaid
    | .updated upd => .updated ({ w with withdrawals := upd } :: ws)
    | .notFound =>
      match markPaidWallets targetId now ws with
      | .notFound => .notFound
      | .alreadyPaid => .alreadyPaid
      | .updated rest => .updated (w :: rest)

/-- Embeds walletStore.markWithdrawalPaid. -/
def markWithdrawalPaid (store : WalletStoreFile) (requestId now : String) :
    OpResult × WalletStoreFile :=
  let targetId := jsTrim requestId
  if targetId = "" then (.fail "Request not found.", store)
  else
    match markPaidWallets targetId now store.userWallets with
    | .notFound => (.fail "Request not found.", store)
    | .alreadyPaid => (.fail "Request already marked paid.", store)
    | .updated ws => (.ok, { store with userWallets := ws })

/-! ## Basic lemmas about wallet lookup and update -/

theorem findWallet_nil (uid : String) : findWallet [] uid = none := rfl

theorem findWallet_cons (w : UserWallet) (ws : List UserWallet) (uid : String) :
    findWallet (w :: ws) uid = if w.userId == uid then some w else findWallet ws uid := by
  cases hw : w.userId == uid <;> simp [findWallet, List.find?_cons, hw]

theorem findWallet_updateFirstWallet_self (uid : String) (f : UserWallet → UserWallet)
    (hf : ∀ w, (f w).userId = w.userId) (l : List UserWallet) :
    findWallet (updateFirstWallet uid f l) uid = (findWallet l uid).map f := by
  induction l with
  | nil => rfl
  | cons w ws ih =>
    by_cases hw : w.userId == uid
    · simp [updateFirstWallet, hw, findWallet_cons, hf w]
    · simp [updateFirstWallet, hw, findWallet_cons, ih]

theorem findWallet_updateFirstWallet_ne (uid uid' : String) (f : UserWallet → UserWallet)
    (hf : ∀ w, (f w).userId = w.userId) (l : List UserWallet) (hne : uid' ≠ uid) :
    findWallet (updateFirstWallet uid f l) uid' = findWallet l uid' := by
  induction l with
  | nil => rfl
  | cons w ws ih =>
    cases hw : w.userId == uid with
    | true =>
      have hw' : w.userId = uid := by simpa using hw
      have h1 : ((f w).userId == uid') = false :=
        beq_eq_false_iff_ne.mpr (by rw [hf w, hw']; exact fun h => hne h.symm)
      have h2 : (w.userId == uid') = false :=
        beq_eq_false_iff_ne.mpr (by rw [hw']; exact fun h => hne h.symm)
      simp [updateFirstWallet, hw, findWallet_cons, h1, h2]
    | false =>
      simp [updateFirstWallet, hw, findWallet_cons, ih]

theorem findWallet_append (l₁ l₂ : List UserWallet) (uid : String) :
    findWallet (l₁ ++ l₂) uid =
      (findWallet l₁ uid).or (findWallet l₂ uid) := by
  induction l₁ with
  | nil => simp [findWallet]
  | cons w ws ih =>
    by_cases hw : w.userId == uid <;>
      simp [findWallet_cons, hw, ih, Option.or]

theorem findWallet_eq_none_of_not_any (l : List UserWallet) (uid : String)
    (h : l.any (fun w => w.userId == uid) = false) : findWallet l uid = none := by
  induction l with
  | nil => rfl
  | cons w ws ih =>
    simp only [List.any_cons, Bool.or_eq_false_iff] at h
    simp [findWallet_cons, h.1, ih h.2]

theorem findWallet_isSome_of_any (l : List UserWallet) (uid : String)
    (h : l.any (fun w => w.userId == uid) = true) : (findWallet l uid).isSome := by
  induction l with
  | nil => simp at h
  | cons w ws ih =>
    cases hw : w.userId == uid with
    | true => simp [findWallet_cons, hw]
    | false =>
      simp only [List.any_cons, hw, Bool.false_or] at h
      simp [findWallet_cons, hw, ih h]

theorem findWallet_upsertWallet_self (s : WalletStoreFile) (uid : String)
    (f : UserWallet → UserWallet) (hf : ∀ w, (f w).userId = w.userId) :
    findWallet (upsertWallet s uid f).userWallets uid =
      some (f ((findWallet s.userWallets uid).getD (defaultUserWallet uid))) := by
  cases hl : s.userWallets.any (fun w => w.userId == uid) with
  | true =>
    simp only [upsertWallet, hl, if_true]
    rw [findWallet_updateFirstWallet_self uid f hf]
    obtain ⟨w, hw⟩ := Option.isSome_iff_exists.mp (findWallet_isSome_of_any _ _ hl)
    simp [hw]
  | false =>
    have hnone := findWallet_eq_none_of_not_any s.userWallets uid hl
    simp only [upsertWallet, hl, Bool.false_eq_true, if_false]
    rw [findWallet_append, hnone]
    have h1 : ((f (defaultUserWallet uid)).userId == uid) = true := by
      rw [hf (defaultUserWallet uid)]
      simp [defaultUserWallet]
    simp [findWallet_cons, h1, Option.or]

theorem findWallet_upsertWallet_ne (s : WalletStoreFile) (uid uid' : String)
    (f : UserWallet → UserWallet) (hf : ∀ w, (f w).userId = w.userId) (hne : uid' ≠ uid) :
    findWallet (upsertWallet s uid f).userWallets uid' = findWallet s.userWallets uid' := by
  cases hl : s.userWallets.any (fun w => w.userId == uid) with
  | true =>
    simp only [upsertWallet, hl, if_true]
    exact findWallet_updateFirstWallet_ne uid uid' f hf s.userWallets hne
  | false =>
    simp only [upsertWallet, hl, Bool.false_eq_true, if_false]
    rw [findWallet_append]
    have h1 : ((f (defaultUserWallet uid)).userId == uid') = false :=
      beq_eq_false_iff_ne.mpr
        (by rw [hf (defaultUserWallet uid)]; exact fun h => hne h.symm)
    cases hfind : findWallet s.userWallets uid' <;>
      simp [hfind, Option.or, findWallet_cons, h1, findWallet_nil]

theorem mem_updateFirstWallet (uid : String) (f : UserWallet → UserWallet)
    (l : List UserWallet) (w' : UserWallet) (h : w' ∈ updateFirstWallet uid f l) :
    w' ∈ l ∨ ∃ w ∈ l, w' = f w := by
  induction l with
  | nil => simp [updateFirstWallet] at h
  | cons w ws ih =>
    cases hw : w.userId == uid with
    | true =>
      simp only [updateFirstWallet, hw, if_true, List.mem_cons] at h
      rcases h with h | h
      · exact Or.inr ⟨w, List.mem_cons_self _ _, h⟩
      · exact Or.inl (List.mem_cons_of_mem _ h)
    | false =>
      simp only [updateFirstWallet, hw, Bool.false_eq_true, if_false, List.mem_cons] at h
      rcases h with h | h
      · exact Or.inl (h ▸ List.mem_cons_self _ _)
      · rcases ih h with h' | ⟨x, hx, hx'⟩
        · exact Or.inl (List.mem_cons_of_mem _ h')
        · exact Or.inr ⟨x, List.mem_cons_of_mem _ hx, hx'⟩

theorem mem_upsertWallet (s : WalletStoreFile) (uid : String) (f : UserWallet → UserWallet)
    (w' : UserWallet) (h : w' ∈ (upsertWallet s uid f).userWallets) :
    w' ∈ s.userWallets ∨ (∃ w ∈ s.userWallets, w' = f w) ∨ w' = f (defaultUserWallet uid) := by
  rw [upsertWallet] at h
  cases hl : s.userWallets.any (fun w => w.userId == uid) with
  | true =>
    rw [hl] at h
    simp only [if_true] at h
    rcases mem_updateFirstWallet uid f s.userWallets w' h with h' | h'
    · exact Or.inl h'
    · exact Or.inr (Or.inl h')
  | false =>
    rw [hl] at h
    simp only [Bool.false_eq_true, if_false, List.mem_append, List.mem_singleton] at h
    rcases h with h | h
    · exact Or.inl h
    · exact Or.inr (Or.inr h)

/-! ## Balance getter lemmas -/

theorem balanceOf_upsertWallet_self (s : WalletStoreFile) (uid : String)
    (f : UserWallet → UserWallet) (hf : ∀ w, (f w).userId = w.userId) :
    balanceOf (upsertWallet s uid f) uid =
      (f ((findWallet s.userWallets uid).getD (defaultUserWallet uid))).balance := by
  unfold balanceOf
  rw [findWallet_upsertWallet_self s uid f hf]
  rfl

theorem balanceOf_upsertWallet_ne (s : WalletStoreFile) (uid uid' : String)
    (f : UserWallet → UserWallet) (hf : ∀ w, (f w).userId = w.userId) (hne : uid' ≠ uid) :
    balanceOf (upsertWallet s uid f) uid' = balanceOf s uid' := by
  unfold balanceOf
  rw [findWallet_upsertWallet_ne s uid uid' f hf hne]

theorem txnsOf_upsertWallet_self (s : WalletStoreFile) (uid : String)
    (f : UserWallet → UserWallet) (hf : ∀ w, (f w).userId = w.userId) :
    txnsOf (upsertWallet s uid f) uid =
      (f ((findWallet s.userWallets uid).getD (defaultUserWallet uid))).txns := by
  unfold txnsOf
  rw [findWallet_upsertWallet_self s uid f hf]
  rfl

theorem txnsOf_upsertWallet_ne (s : WalletStoreFile) (uid uid' : String)
    (f : UserWallet → UserWallet) (hf : ∀ w, (f w).userId = w.userId) (hne : uid' ≠ uid) :
    txnsOf (upsertWallet s uid f) uid' = txnsOf s uid' := by
  unfold txnsOf
  rw [findWallet_upsertWallet_ne s uid uid' f hf hne]

theorem withdrawalsOf_upsertWallet_self (s : WalletStoreFile) (uid : String)
    (f : UserWallet → UserWallet) (hf : ∀ w, (f w).userId = w.userId) :
    withdrawalsOf (upsertWallet s uid f) uid =
      (f ((findWallet s.userWallets uid).getD (defaultUserWallet uid))).withdrawals := by
  unfold withdrawalsOf
  rw [findWallet_upsertWallet_self s uid f hf]
  rfl

theorem withdrawalsOf_upsertWallet_ne (s : WalletStoreFile) (uid uid' : String)
    (f : UserWallet → UserWallet) (hf : ∀ w, (f w).userId = w.userId) (hne : uid' ≠ uid) :
    withdrawalsOf (upsertWallet s uid f) uid' = withdrawalsOf s uid' := by
  unfold withdrawalsOf
  rw [findWallet_upsertWallet_ne s uid uid' f hf hne]

/-! ## Ledger sums and the balance invariant -/

def creditSum (txns : List WalletTxn) : ℤ :=
  ((txns.filter (fun t => t.type == TxnType.CREDIT)).map (fun t => t.amount)).sum

def debitSum (txns : List WalletTxn) : ℤ :=
  ((txns.filter (fun t => t.type == TxnType.DEBIT)).map (fun t => t.amount)).sum

theorem creditSum_cons (t : WalletTxn) (l : List WalletTxn) :
    creditSum (t :: l) = (if t.type = TxnType.CREDIT then t.amount else 0) + creditSum l := by
  cases ht : t.type <;> simp [creditSum, ht]

theorem debitSum_cons (t : WalletTxn) (l : List WalletTxn) :
    debitSum (t :: l) = (if t.type = TxnType.DEBIT then t.amount else 0) + debitSum l := by
  cases ht : t.type <;> simp [debitSum, ht]

/-- The per-wallet ledger-balance equation: balance equals the sum of CREDIT
amounts minus the sum of DEBIT amounts. -/
def ledgerBalanced (w : UserWallet) : Prop :=
  w.balance = creditSum w.txns - debitSum w.txns

def walletInvariant (s : WalletStoreFile) : Prop :=
  ∀ w ∈ s.userWallets, ledgerBalanced w

theorem ledgerBalanced_default (uid : String) : ledgerBalanced (defaultUserWallet uid) := by
  simp [ledgerBalanced, defaultUserWallet, creditSum, debitSum]

theorem walletInvariant_upsertWallet (s : WalletStoreFile) (uid : String)
    (f : UserWallet → UserWallet) (hpres : ∀ w, ledgerBalanced w → ledgerBalanced (f w))
    (h : walletInvariant s) : walletInvariant (upsertWallet s uid f) := by
  intro w' hw'
  rcases mem_upsertWallet s uid f w' hw' with h1 | ⟨w, hw, rfl⟩ | rfl
  · exact h _ h1
  · exact hpres _ (h _ hw)
  · exact hpres _ (ledgerBalanced_default uid)

theorem walletInvariant_spendCredits (s : WalletStoreFile) (u : String) (a : ℤ)
    (n i t : String) (h : walletInvariant s) :
    walletInvariant (spendCredits s u a n i t).2 := by
  unfold spendCredits
  dsimp only
  split
  · exact h
  · split
    · exact h
    · split
      · exact h
      · apply walletInvariant_upsertWallet _ _ _ _ h
        intro w hw
        simp only [ledgerBalanced, creditSum_cons, debitSum_cons] at hw ⊢
        simp only [hw]
        simp
        ring

theorem walletInvariant_registerIncomingPayment (s : WalletStoreFile) (tx : String)
    (a : ℤ) (n i t : String) (h : walletInvariant s) :
    walletInvariant (registerIncomingPayment s tx a n i t).2 := by
  unfold registerIncomingPayment
  dsimp only
  split
  · exact h
  · split
    · exact h
    · split
      · exact h
      · exact h

theorem walletInvariant_claimCreditsByTxnId (s : WalletStoreFile) (u un tx i t : String)
    (h : walletInvariant s) :
    walletInvariant (claimCreditsByTxnId s u un tx i t).2 := by
  unfold claimCreditsByTxnId
  dsimp only
  split
  · exact h
  · split
    · exact h
    · split
      · exact h
      · exact h
      · dsimp only
        apply walletInvariant_upsertWallet
        · intro w hw
          simp only [ledgerBalanced, creditSum_cons, debitSum_cons] at hw ⊢
          simp only [hw]
          simp
          ring
        · intro w hw
          exact h w hw

theorem walletInvariant_adminCreditWallet (s : WalletStoreFile) (u : String) (a : ℤ)
    (n i t : String) (h : walletInvariant s) :
    walletInvariant (adminCreditWallet s u a n i t).2 := by
  unfold adminCreditWallet
  dsimp only
  split
  · exact h
  · split
    · exact h
    · apply walletInvariant_upsertWallet _ _ _ _ h
      intro w hw
      simp only [ledgerBalanced, creditSum_cons, debitSum_cons] at hw ⊢
      simp only [hw]
      simp
      ring

theorem walletInvariant_requestWithdrawal (s : WalletStoreFile) (u un up : String)
    (a : ℤ) (r i t : String) (h : walletInvariant s) :
    walletInvariant (requestWithdrawal s u un up a r i t).2 := by
  unfold requestWithdrawal
  dsimp only
  split
  · exact h
  · split
    · exact h
    · split
      · exact h
      · split
        · exact h
        · split
          · exact h
          · split
            · exact h
            · apply walletInvariant_upsertWallet _ _ _ _ h
              intro w hw
              simp only [ledgerBalanced, creditSum_cons, debitSum_cons] at hw ⊢
              simp only [hw]
              simp
              ring

theorem mem_markPaidWallets (targetId now : String) (l ws : List UserWallet)
    (h : markPaidWallets targetId now l = .updated ws) :
    ∀ w' ∈ ws, ∃ w ∈ l, w'.balance = w.balance ∧ w'.txns = w.txns := by
  induction l generalizing ws with
  | nil => simp [markPaidWallets] at h
  | cons w rest ih =>
    rw [markPaidWallets] at h
    cases hscan : scanPaidWithdrawals targetId now w.withdrawals with
    | alreadyPaid => rw [hscan] at h; cases h
    | updated upd =>
      rw [hscan] at h
      injection h with h
      subst h
      intro w' hw'
      rcases List.mem_cons.mp hw' with rfl | hw'
      · exact ⟨w, List.mem_cons_self _ _, rfl, rfl⟩
      · exact ⟨w', List.mem_cons_of_mem _ hw', rfl, rfl⟩
    | notFound =>
      rw [hscan] at h
      cases hrec : markPaidWallets targetId now rest with
      | notFound => rw [hrec] at h; cases h
      | alreadyPaid => rw [hrec] at h; cases h
      | updated ws' =>
        rw [hrec] at h
        injection h with h
        subst h
        intro w' hw'
        rcases List.mem_cons.mp hw' with heq | hw'
        · exact ⟨w, List.mem_cons_self _ _, by rw [heq], by rw [heq]⟩
        · obtain ⟨x, hx, hb, ht⟩ := ih ws' hrec w' hw'
          exact ⟨x, List.mem_cons_of_mem _ hx, hb, ht⟩

theorem walletInvariant_markWithdrawalPaid (s : WalletStoreFile) (rid t : String)
    (h : walletInvariant s) :
    walletInvariant (markWithdrawalPaid s rid t).2 := by
  unfold markWithdrawalPaid
  dsimp only
  split
  · exact h
  · split
    · exact h
    · exact h
    · rename_i ws hws
      intro w' hw'
      obtain ⟨w, hw, hb, ht⟩ := mem_markPaidWallets (jsTrim rid) t s.userWallets ws hws w' hw'
      have hbal := h w hw
      simp only [ledgerBalanced] at hbal ⊢
      rw [hb, ht]
      exact hbal

/-! ## Arbitrary sequences of wallet operations -/

inductive WalletOp where
  | register (txnId : String) (amount : ℤ) (note freshId now : String)
  | claim (userId username txnId freshId now : String)
  | spend (userId : String) (amount : ℤ) (note freshId now : String)
  | adminCredit (userId : String) (amount : ℤ) (note freshId now : String)
  | withdraw (userId username upiId : String) (amount : ℤ) (reqId ledgerId now : String)
  | markPaid (requestId now : String)

def applyWalletOp (s : WalletStoreFile) : WalletOp → WalletStoreFile
  | .register tx a n i t => (registerIncomingPayment s tx a n i t).2
  | .claim u un tx i t => (claimCreditsByTxnId s u un tx i t).2
  | .spend u a n i t => (spendCredits s u a n i t).2
  | .adminCredit u a n i t => (adminCreditWallet s u a n i t).2
  | .withdraw u un up a r i t => (requestWithdrawal s u un up a r i t).2
  | .markPaid r t => (markWithdrawalPaid s r t).2

def runWalletOps (s : WalletStoreFile) : List WalletOp → WalletStoreFile
  | [] => s
  | op :: rest => runWalletOps (applyWalletOp s op) rest

theorem walletInvariant_applyWalletOp (s : WalletStoreFile) (op : WalletOp)
    (h : walletInvariant s) : walletInvariant (applyWalletOp s op) := by
  cases op with
  | register tx a n i t => exact walletInvariant_registerIncomingPayment s tx a n i t h
  | claim u un tx i t => exact walletInvariant_claimCreditsByTxnId s u un tx i t h
  | spend u a n i t => exact walletInvariant_spendCredits s u a n i t h
  | adminCredit u a n i t => exact walletInvariant_adminCreditWallet s u a n i t h
  | withdraw u un up a r i t => exact walletInvariant_requestWithdrawal s u un up a r i t h
  | markPaid r t => exact walletInvariant_markWithdrawalPaid s r t h

theorem walletInvariant_runWalletOps (s : WalletStoreFile) (ops : List WalletOp)
    (h : walletInvariant s) : walletInvariant (runWalletOps s ops) := by
  induction ops generalizing s with
  | nil => exact h
  | cons op rest ih => exact ih _ (walletInvariant_applyWalletOp s op h)

theorem walletInvariant_empty : walletInvariant emptyWalletStore := by
  intro w hw
  simp [emptyWalletStore] at hw

/-- C4: for every user, after any sequence of wallet operations (deposit
registration, deposit claims, admin credits, debits, withdrawal requests,
mark-paid) starting from an empty store, the balance of every wallet equals
the sum of the amounts of its CREDIT ledger entries minus the sum of the
amounts of its DEBIT ledger entries. -/
theorem ledger_balance_invariant_after_any_ops (ops : List WalletOp) (w : UserWallet)
    (hw : w ∈ (runWalletOps emptyWalletStore ops).userWallets) :
    w.balance = creditSum w.txns - debitSum w.txns :=
  walletInvariant_runWalletOps emptyWalletStore ops walletInvariant_empty w hw

/-- A concrete run for the C4 witness: credit 5 to user u, then debit 2. -/
def sampleWalletOps : List WalletOp :=
  [.adminCredit "u" 5 "note" "i1" "t1", .spend "u" 2 "fee" "i2" "t2"]

/-- The wallet produced by sampleWalletOps. -/
def sampleWallet : UserWallet :=
  { userId := "u", balance := 3,
    txns := [{ id := "i2", type := .DEBIT, amount := 2, note := "fee", createdAt := "t2" },
             { id := "i1", type := .CREDIT, amount := 5, note := "note", createdAt := "t1" }],
    withdrawals := [] }

/-- Witness for C4: a concrete credit of 5 followed by a debit of 2 leaves a
wallet whose balance 3 matches its ledger sums. -/
theorem ledger_balance_invariant_after_any_ops_witness :
    sampleWallet ∈ (runWalletOps emptyWalletStore sampleWalletOps).userWallets ∧
    sampleWallet.balance = creditSum sampleWallet.txns - debitSum sampleWallet.txns :=
  ⟨by decide, ledger_balance_invariant_after_any_ops sampleWalletOps sampleWallet (by decide)⟩

/-! ## C3: debit never negative, all-or-nothing -/

/-- C3: debit is all-or-nothing and never produces a negative balance.  A
non-positive amount fails validation and changes nothing; an amount above
the current balance fails with the insufficient-balance error and leaves the
store exactly as before; an amount within the balance succeeds, decreases the
balance by exactly that amount (staying non-negative), prepends exactly one
DEBIT ledger entry, and leaves withdrawals untouched.  Non-finite amounts are
not representable on the integer carrier. -/
theorem spendCredits_no_negative_balance (store : WalletStoreFile) (userId : String)
    (amount : ℤ) (note freshId now : String)
    (huid : jsTrim userId = userId) (hne : userId ≠ "") :
    (amount ≤ 0 →
      spendCredits store userId amount note freshId now =
        (.fail "Amount must be greater than 0.", store)) ∧
    (0 < amount → balanceOf store userId < amount →
      spendCredits store userId amount note freshId now =
        (.fail "Not enough balance.", store)) ∧
    (0 < amount → amount ≤ balanceOf store userId →
      (spendCredits store userId amount note freshId now).1 = .ok ∧
      balanceOf (spendCredits store userId amount note freshId now).2 userId =
        balanceOf store userId - amount ∧
      0 ≤ balanceOf (spendCredits store userId amount note freshId now).2 userId ∧
      txnsOf (spendCredits store userId amount note freshId now).2 userId =
        WalletTxn.mk freshId .DEBIT amount
          (if jsTrim note = "" then "Debit" else jsTrim note) now :: txnsOf store userId ∧
      withdrawalsOf (spendCredits store userId amount note freshId now).2 userId =
        withdrawalsOf store userId) := by
  have hunfold : spendCredits store userId amount note freshId now =
      (if userId = "" then (.fail "Login required.", store)
       else if amount ≤ 0 then (.fail "Amount must be greater than 0.", store)
       else if balanceOf store userId < amount then (.fail "Not enough balance.", store)
       else
         (.ok, upsertWallet store userId (fun w =>
           { w with
             balance := w.balance - amount
             txns := WalletTxn.mk freshId .DEBIT amount
               (if jsTrim note = "" then "Debit" else jsTrim note) now :: w.txns }))) := by
    unfold spendCredits
    rw [huid]
  refine ⟨?_, ?_, ?_⟩
  · intro hle
    rw [hunfold, if_neg hne, if_pos hle]
  · intro hpos hlt
    rw [hunfold, if_neg hne, if_neg (by omega : ¬ amount ≤ 0), if_pos hlt]
  · intro hpos hle
    rw [hunfold, if_neg hne, if_neg (by omega : ¬ amount ≤ 0),
      if_neg (by omega : ¬ balanceOf store userId < amount)]
    have hpr : ∀ w : UserWallet,
        ((fun (w : UserWallet) => { w with
          balance := w.balance - amount
          txns := WalletTxn.mk freshId .DEBIT amount
            (if jsTrim note = "" then "Debit" else jsTrim note) now :: w.txns }) w).userId =
          w.userId := fun _ => rfl
    refine ⟨rfl, ?_, ?_, ?_, ?_⟩
    · rw [balanceOf_upsertWallet_self store userId _ hpr]
      rfl
    · rw [balanceOf_upsertWallet_self store userId _ hpr]
      show 0 ≤ balanceOf store userId - amount
      omega
    · rw [txnsOf_upsertWallet_self store userId _ hpr]
      rfl
    · rw [withdrawalsOf_upsertWallet_self store userId _ hpr]
      rfl

/-- A one-user store with balance 50, used by several witnesses. -/
def sampleStore50 : WalletStoreFile :=
  { adminTxns := [], userWallets := [{ userId := "u", balance := 50, txns := [], withdrawals := [] }] }

/-- Witness for C3: debiting 100 from a balance of 50 fails with the
insufficient-balance error and leaves the store unchanged. -/
theorem spendCredits_no_negative_balance_witness :
    spendCredits sampleStore50 "u" 100 "fee" "i" "t" =
      (.fail "Not enough balance.", sampleStore50) :=
  (spendCredits_no_negative_balance sampleStore50 "u" 100 "fee" "i" "t"
    (by decide) (by decide)).2.1 (by decide) (by decide)

/-! ## C8: withdrawal request semantics -/

/-- C8: requestWithdrawal succeeds only for an amount of at least the
200-unit minimum sent to a destination containing the at sign and covered by
the balance; success immediately debits the balance by exactly the amount,
prepends one DEBIT ledger entry and one PENDING request; an amount below the
minimum fails regardless of balance, an invalid destination or insufficient
balance fails, and every failure leaves the store unchanged.  Amounts are
whole numbers by the integer carrier. -/
theorem requestWithdrawal_semantics (store : WalletStoreFile)
    (userId username upiIdInput : String) (amount : ℤ) (reqId ledgerId now : String)
    (huid : jsTrim userId = userId) (hne : userId ≠ "")
    (hupi : jsTrim upiIdInput = upiIdInput) :
    (0 < amount → amount < 200 →
      requestWithdrawal store userId username upiIdInput amount reqId ledgerId now =
        (.fail "Minimum withdrawal is Rs 200.", store)) ∧
    (200 ≤ amount → upiIdInput.data.contains '@' = false →
      (requestWithdrawal store userId username upiIdInput amount reqId ledgerId now).1 ≠ .ok ∧
      (requestWithdrawal store userId username upiIdInput amount reqId ledgerId now).2 = store) ∧
    (200 ≤ amount → upiIdInput.data.contains '@' = true →
      balanceOf store userId < amount →
      requestWithdrawal store userId username upiIdInput amount reqId ledgerId now =
        (.fail "Not enough balance.", store)) ∧
    (200 ≤ amount → upiIdInput.data.contains '@' = true →
      amount ≤ balanceOf store userId →
      (requestWithdrawal store userId username upiIdInput amount reqId ledgerId now).1 = .ok ∧
      balanceOf (requestWithdrawal store userId username upiIdInput amount reqId ledgerId now).2
          userId = balanceOf store userId - amount ∧
      withdrawalsOf
          (requestWithdrawal store userId username upiIdInput amount reqId ledgerId now).2
          userId =
        WithdrawalRequest.mk reqId userId
          (if jsTrim username = "" then "player" else jsTrim username) amount upiIdInput
          .PENDING now none (some "Awaiting admin payout") :: withdrawalsOf store userId ∧
      txnsOf (requestWithdrawal store userId username upiIdInput amount reqId ledgerId now).2
          userId =
        WalletTxn.mk ledgerId .DEBIT amount
          ("Withdrawal request of Rs " ++ toString amount ++ " submitted to " ++ upiIdInput)
          now :: txnsOf store userId) := by
  have hunfold : requestWithdrawal store userId username upiIdInput amount reqId ledgerId now =
      (if userId = "" then (.fail "Login required.", store)
       else if amount ≤ 0 then (.fail "Enter a valid withdrawal amount.", store)
       else if amount < MIN_WITHDRAWAL_AMOUNT then
        (.fail "Minimum withdrawal is Rs 200.", store)
       else if upiIdInput = "" then (.fail "UPI ID is required.", store)
       else if !(upiIdInput.data.contains '@') then
        (.fail "Enter a valid UPI ID (example: name@bank).", store)
       else if balanceOf store userId < amount then (.fail "Not enough balance.", store)
       else
        (.ok, upsertWallet store userId (fun w =>
          { w with
            balance := w.balance - amount
            withdrawals := WithdrawalRequest.mk reqId userId
              (if jsTrim username = "" then "player" else jsTrim username) amount upiIdInput
              .PENDING now none (some "Awaiting admin payout") :: w.withdrawals
            txns := WalletTxn.mk ledgerId .DEBIT amount
              ("Withdrawal request of Rs " ++ toString amount ++ " submitted to " ++ upiIdInput)
              now :: w.txns }))) := by
    unfold requestWithdrawal
    rw [huid, hupi]
  refine ⟨?_, ?_, ?_, ?_⟩
  · intro hpos hmin
    rw [hunfold, if_neg hne, if_neg (by omega : ¬ amount ≤ 0),
      if_pos (by simpa [MIN_WITHDRAWAL_AMOUNT] using hmin)]
  · intro hmin hat
    by_cases hempty : upiIdInput = ""
    · rw [hunfold, if_neg hne, if_neg (by omega : ¬ amount ≤ 0),
        if_neg (by simp only [MIN_WITHDRAWAL_AMOUNT]; omega), if_pos hempty]
      exact ⟨by simp, rfl⟩
    · rw [hunfold, if_neg hne, if_neg (by omega : ¬ amount ≤ 0),
        if_neg (by simp only [MIN_WITHDRAWAL_AMOUNT]; omega), if_neg hempty,
        if_pos (by rw [hat]; rfl)]
      exact ⟨by simp, rfl⟩
  · intro hmin hat hbal
    have hempty : upiIdInput ≠ "" := by
      intro h
      rw [h] at hat
      exact absurd hat (by decide)
    rw [hunfold, if_neg hne, if_neg (by omega : ¬ amount ≤ 0),
      if_neg (by simp only [MIN_WITHDRAWAL_AMOUNT]; omega), if_neg hempty,
      if_neg (by rw [hat]; decide), if_pos hbal]
  · intro hmin hat hbal
    have hempty : upiIdInput ≠ "" := by
      intro h
      rw [h] at hat
      exact absurd hat (by decide)
    rw [hunfold, if_neg hne, if_neg (by omega : ¬ amount ≤ 0),
      if_neg (by simp only [MIN_WITHDRAWAL_AMOUNT]; omega), if_neg hempty,
      if_neg (by rw [hat]; decide), if_neg (by omega : ¬ balanceOf store userId < amount)]
    have hpr : ∀ w : UserWallet,
        ((fun (w : UserWallet) => { w with
          balance := w.balance - amount
          withdrawals := WithdrawalRequest.mk reqId userId
            (if jsTrim username = "" then "player" else jsTrim username) amount upiIdInput
            .PENDING now none (some "Awaiting admin payout") :: w.withdrawals
          txns := WalletTxn.mk ledgerId .DEBIT amount
            ("Withdrawal request of Rs " ++ toString amount ++ " submitted to " ++ upiIdInput)
            now :: w.txns }) w).userId = w.userId := fun _ => rfl
    refine ⟨rfl, ?_, ?_, ?_⟩
    · rw [balanceOf_upsertWallet_self store userId _ hpr]
      rfl
    · rw [withdrawalsOf_upsertWallet_self store userId _ hpr]
      rfl
    · rw [txnsOf_upsertWallet_self store userId _ hpr]
      rfl

/-- A one-user store with balance 500, used by witnesses. -/
def sampleStore500 : WalletStoreFile :=
  { adminTxns := [],
    userWallets := [{ userId := "u", balance := 500, txns := [], withdrawals := [] }] }

/-- Witness for C8: withdrawing exactly 200 with balance 500 succeeds and the
balance drops to 300. -/
theorem requestWithdrawal_semantics_witness :
    (requestWithdrawal sampleStore500 "u" "al" "a@b" 200 "r" "l" "t").1 = .ok ∧
    balanceOf (requestWithdrawal sampleStore500 "u" "al" "a@b" 200 "r" "l" "t").2 "u" = 300 := by
  have h := (requestWithdrawal_semantics sampleStore500 "u" "al" "a@b" 200 "r" "l" "t"
    (by decide) (by decide) (by decide)).2.2.2 (by decide) (by decide) (by decide)
  exact ⟨h.1, by rw [h.2.1]; decide⟩

/-! ## Claim scan lemmas -/

theorem scanClaim_notFound (ntid uid uname now : String) (l : List AdminTxn)
    (h : ∀ e ∈ l, normalizeTxnId e.txnId ≠ ntid) :
    scanClaim ntid uid uname now l = .notFound := by
  induction l with
  | nil => rfl
  | cons e rest ih =>
    rw [scanClaim, if_neg (h e (List.mem_cons_self _ _)),
      ih (fun x hx => h x (List.mem_cons_of_mem _ hx))]

theorem scanClaim_found_claimed (ntid uid uname now : String) (pre post : List AdminTxn)
    (e : AdminTxn) (hpre : ∀ x ∈ pre, normalizeTxnId x.txnId ≠ ntid)
    (he : normalizeTxnId e.txnId = ntid) (hst : e.status = .CLAIMED) :
    scanClaim ntid uid uname now (pre ++ e :: post) = .alreadyClaimed := by
  induction pre with
  | nil =>
    rw [List.nil_append, scanClaim, if_pos he, if_pos hst]
  | cons x xs ih =>
    rw [List.cons_append, scanClaim, if_neg (hpre x (List.mem_cons_self _ _)),
      ih (fun y hy => hpre y (List.mem_cons_of_mem _ hy))]

theorem scanClaim_found_available (ntid uid uname now : String) (pre post : List AdminTxn)
    (e : AdminTxn) (hpre : ∀ x ∈ pre, normalizeTxnId x.txnId ≠ ntid)
    (he : normalizeTxnId e.txnId = ntid) (hst : e.status = .AVAILABLE) :
    scanClaim ntid uid uname now (pre ++ e :: post) =
      .claimed e (pre ++ claimEntry e uid uname now :: post) := by
  induction pre with
  | nil =>
    rw [List.nil_append, scanClaim, if_pos he, if_neg (by rw [hst]; exact fun h => by cases h)]
    rfl
  | cons x xs ih =>
    rw [List.cons_append, scanClaim, if_neg (hpre x (List.mem_cons_self _ _)),
      ih (fun y hy => hpre y (List.mem_cons_of_mem _ hy))]
    rfl

/-- Unfolding of a successful deposit claim: the matched AVAILABLE entry is
replaced in place by its claimed version and the claimant wallet is credited
with the entry amount. -/
theorem claimCreditsByTxnId_success (store : WalletStoreFile)
    (userId username txnIdInput freshId now : String)
    (pre post : List AdminTxn) (e : AdminTxn)
    (huid : jsTrim userId = userId) (hne : userId ≠ "")
    (hntid : normalizeTxnId txnIdInput ≠ "")
    (hdecomp : store.adminTxns = pre ++ e :: post)
    (hpre : ∀ x ∈ pre, normalizeTxnId x.txnId ≠ normalizeTxnId txnIdInput)
    (he : normalizeTxnId e.txnId = normalizeTxnId txnIdInput)
    (hav : e.status = .AVAILABLE) :
    claimCreditsByTxnId store userId username txnIdInput freshId now =
      (.ok, upsertWallet
        { store with adminTxns := pre ++ claimEntry e userId (jsTrim username) now :: post }
        userId (fun w =>
          { w with
            balance := w.balance + e.amount
            txns := WalletTxn.mk freshId .CREDIT e.amount
              ("UPI deposit claimed (Txn ID: " ++ e.txnId ++ ")") now :: w.txns })) := by
  unfold claimCreditsByTxnId
  rw [huid]
  rw [if_neg hne, if_neg hntid, hdecomp,
    scanClaim_found_available (normalizeTxnId txnIdInput) userId (jsTrim username) now
      pre post e hpre he hav]

/-! ## Sum of all balances -/

def sumBalances (s : WalletStoreFile) : ℤ :=
  (s.userWallets.map (fun w => w.balance)).sum

theorem sum_updateFirstWallet (uid : String) (f : UserWallet → UserWallet) (d : ℤ)
    (hd : ∀ w, (f w).balance = w.balance + d) (l : List UserWallet)
    (hl : l.any (fun w => w.userId == uid) = true) :
    ((updateFirstWallet uid f l).map (fun w => w.balance)).sum =
      (l.map (fun w => w.balance)).sum + d := by
  induction l with
  | nil => simp at hl
  | cons w ws ih =>
    cases hw : w.userId == uid with
    | true =>
      simp only [updateFirstWallet, hw, if_true, List.map_cons, List.sum_cons, hd w]
      ring
    | false =>
      simp only [List.any_cons, hw, Bool.false_or] at hl
      simp only [updateFirstWallet, hw, Bool.false_eq_true, if_false, List.map_cons,
        List.sum_cons, ih hl]
      ring

theorem sumBalances_upsertWallet (s : WalletStoreFile) (uid : String)
    (f : UserWallet → UserWallet) (d : ℤ) (hd : ∀ w, (f w).balance = w.balance + d) :
    sumBalances (upsertWallet s uid f) = sumBalances s + d := by
  cases hl : s.userWallets.any (fun w => w.userId == uid) with
  | true =>
    simp only [sumBalances, upsertWallet, hl, if_true]
    exact sum_updateFirstWallet uid f d hd s.userWallets hl
  | false =>
    simp only [sumBalances, upsertWallet, hl, Bool.false_eq_true, if_false,
      List.map_append, List.sum_append, List.map_cons, List.map_nil, List.sum_cons,
      List.sum_nil, hd (defaultUserWallet uid)]
    simp [defaultUserWallet]

/-! ## Sequences of claim calls -/

structure ClaimCall where
  userId : String
  username : String
  txnIdInput : String
  freshId : String
  now : String

/-- Runs a list of claim calls sequentially, counting the successes. -/
def runClaims (s : WalletStoreFile) : List ClaimCall → ℕ × WalletStoreFile
  | [] => (0, s)
  | c :: rest =>
    let r := claimCreditsByTxnId s c.userId c.username c.txnIdInput c.freshId c.now
    let t := runClaims r.2 rest
    ((if r.1 = .ok then 1 else 0) + t.1, t.2)

/-- The store holds an AVAILABLE entry of amount a as the first match for a
normalized txn id. -/
def availAt (s : WalletStoreFile) (ntid : String) (a : ℤ) : Prop :=
  ∃ pre e post, s.adminTxns = pre ++ e :: post ∧
    (∀ x ∈ pre, normalizeTxnId x.txnId ≠ ntid) ∧
    normalizeTxnId e.txnId = ntid ∧ e.status = .AVAILABLE ∧ e.amount = a

/-- The store holds a CLAIMED entry as the first match for a normalized txn
id. -/
def claimedAt (s : WalletStoreFile) (ntid : String) : Prop :=
  ∃ pre e post, s.adminTxns = pre ++ e :: post ∧
    (∀ x ∈ pre, normalizeTxnId x.txnId ≠ ntid) ∧
    normalizeTxnId e.txnId = ntid ∧ e.status = .CLAIMED

theorem claim_step_claimedAt (s : WalletStoreFile) (c : ClaimCall) (ntid : String)
    (h : claimedAt s ntid) (hc : normalizeTxnId c.txnIdInput = ntid) :
    (claimCreditsByTxnId s c.userId c.username c.txnIdInput c.freshId c.now).1 ≠ .ok ∧
    (claimCreditsByTxnId s c.userId c.username c.txnIdInput c.freshId c.now).2 = s := by
  obtain ⟨pre, e, post, hdecomp, hpre, he, hst⟩ := h
  unfold claimCreditsByTxnId
  by_cases hu : jsTrim c.userId = ""
  · rw [if_pos hu]
    exact ⟨by simp, rfl⟩
  · rw [if_neg hu]
    by_cases hn : normalizeTxnId c.txnIdInput = ""
    · rw [if_pos hn]
      exact ⟨by simp, rfl⟩
    · rw [if_neg hn, hdecomp,
        scanClaim_found_claimed (normalizeTxnId c.txnIdInput) (jsTrim c.userId)
          (jsTrim c.username) c.now pre post e (by rw [hc]; exact hpre) (by rw [hc, he]) hst]
      exact ⟨by simp, rfl⟩

theorem adminTxns_upsertWallet (s : WalletStoreFile) (uid : String)
    (f : UserWallet → UserWallet) : (upsertWallet s uid f).adminTxns = s.adminTxns := by
  unfold upsertWallet
  split <;> rfl

theorem claim_step_availAt (s : WalletStoreFile) (c : ClaimCall) (ntid : String) (a : ℤ)
    (h : availAt s ntid a) (hc : normalizeTxnId c.txnIdInput = ntid) (hntid : ntid ≠ "")
    (hwf : jsTrim c.userId = c.userId) :
    ((claimCreditsByTxnId s c.userId c.username c.txnIdInput c.freshId c.now).1 ≠ .ok ∧
      (claimCreditsByTxnId s c.userId c.username c.txnIdInput c.freshId c.now).2 = s) ∨
    ((claimCreditsByTxnId s c.userId c.username c.txnIdInput c.freshId c.now).1 = .ok ∧
      claimedAt (claimCreditsByTxnId s c.userId c.username c.txnIdInput c.freshId c.now).2 ntid ∧
      sumBalances (claimCreditsByTxnId s c.userId c.username c.txnIdInput c.freshId c.now).2 =
        sumBalances s + a) := by
  obtain ⟨pre, e, post, hdecomp, hpre, he, hst, ha⟩ := h
  by_cases hu : c.userId = ""
  · left
    unfold claimCreditsByTxnId
    rw [hwf, if_pos hu]
    exact ⟨by simp, rfl⟩
  · right
    have hsucc := claimCreditsByTxnId_success s c.userId c.username c.txnIdInput
      c.freshId c.now pre post e hwf hu (by rw [hc]; exact hntid) hdecomp
      (by rw [hc]; exact hpre) (by rw [hc]; exact he) hst
    rw [hsucc]
    refine ⟨rfl, ?_, ?_⟩
    · refine ⟨pre, claimEntry e c.userId (jsTrim c.username) c.now, post, ?_, hpre, ?_, rfl⟩
      · rw [adminTxns_upsertWallet]
      · exact he
    · have hsum := sumBalances_upsertWallet
        { s with adminTxns := pre ++ claimEntry e c.userId (jsTrim c.username) c.now :: post }
        c.userId
        (fun w =>
          { w with
            balance := w.balance + e.amount
            txns := WalletTxn.mk c.freshId .CREDIT e.amount
              ("UPI deposit claimed (Txn ID: " ++ e.txnId ++ ")") c.now :: w.txns })
        e.amount (fun _ => rfl)
      rw [hsum, ha]
      rfl

theorem runClaims_claimedAt (ntid : String) (calls : List ClaimCall) :
    ∀ s : WalletStoreFile, claimedAt s ntid →
    (∀ c ∈ calls, normalizeTxnId c.txnIdInput = ntid) →
    runClaims s calls = (0, s) := by
  induction calls with
  | nil => intro s _ _; rfl
  | cons c rest ih =>
    intro s h hall
    obtain ⟨hne, heq⟩ := claim_step_claimedAt s c ntid h (hall c (List.mem_cons_self _ _))
    show ((if (claimCreditsByTxnId s c.userId c.username c.txnIdInput c.freshId c.now).1 = .ok
        then 1 else 0) +
      (runClaims (claimCreditsByTxnId s c.userId c.username c.txnIdInput c.freshId c.now).2
        rest).1,
      (runClaims (claimCreditsByTxnId s c.userId c.username c.txnIdInput c.freshId c.now).2
        rest).2) = (0, s)
    rw [heq, if_neg hne, ih s h (fun x hx => hall x (List.mem_cons_of_mem _ hx))]
    simp

theorem runClaims_availAt (ntid : String) (a : ℤ) (hntid : ntid ≠ "")
    (calls : List ClaimCall) :
    ∀ s : WalletStoreFile, availAt s ntid a →
    (∀ c ∈ calls, normalizeTxnId c.txnIdInput = ntid) →
    (∀ c ∈ calls, jsTrim c.userId = c.userId) →
    (runClaims s calls).1 ≤ 1 ∧
    sumBalances (runClaims s calls).2 =
      sumBalances s + a * ((runClaims s calls).1 : ℤ) := by
  induction calls with
  | nil =>
    intro s _ _ _
    exact ⟨by simp [runClaims], by simp [runClaims]⟩
  | cons c rest ih =>
    intro s h hall hwf
    have hstep := claim_step_availAt s c ntid a h (hall c (List.mem_cons_self _ _)) hntid
      (hwf c (List.mem_cons_self _ _))
    have hshow : runClaims s (c :: rest) =
        ((if (claimCreditsByTxnId s c.userId c.username c.txnIdInput c.freshId c.now).1 = .ok
          then 1 else 0) +
        (runClaims (claimCreditsByTxnId s c.userId c.username c.txnIdInput c.freshId c.now).2
          rest).1,
        (runClaims (claimCreditsByTxnId s c.userId c.username c.txnIdInput c.freshId c.now).2
          rest).2) := rfl
    rcases hstep with ⟨hne, heq⟩ | ⟨hok, hcl, hsum⟩
    · rw [hshow, heq, if_neg hne]
      have hrest := ih s h (fun x hx => hall x (List.mem_cons_of_mem _ hx))
        (fun x hx => hwf x (List.mem_cons_of_mem _ hx))
      simpa using hrest
    · have hrest := runClaims_claimedAt ntid rest
        (claimCreditsByTxnId s c.userId c.username c.txnIdInput c.freshId c.now).2 hcl
        (fun x hx => hall x (List.mem_cons_of_mem _ hx))
      rw [hshow, if_pos hok, hrest]
      refine ⟨by simp, ?_⟩
      simp only []
      rw [hsum]
      ring

/-! ## C2: a registered deposit is claimed at most once -/

/-- C2: a registered deposit is claimed at most once.  For a store whose
first entry matching a normalized txn id is AVAILABLE: the first claim by a
valid user succeeds, replaces the entry in place by its CLAIMED version with
the claimant stamped, and credits the claimant by exactly the entry amount;
any claim of an unregistered id fails with the not-registered error leaving
the store unchanged; any claim of an id whose first match is CLAIMED fails
with the already-used error leaving the store unchanged; and across any
sequence of claim calls for this id, at most one succeeds and the total of
all balances grows by exactly the entry amount times the number of
successes. -/
theorem deposit_claim_exactly_once (store : WalletStoreFile)
    (userId username txnIdInput freshId now : String)
    (pre post : List AdminTxn) (e : AdminTxn)
    (huid : jsTrim userId = userId) (hne : userId ≠ "")
    (hntid : normalizeTxnId txnIdInput ≠ "")
    (hdecomp : store.adminTxns = pre ++ e :: post)
    (hpre : ∀ x ∈ pre, normalizeTxnId x.txnId ≠ normalizeTxnId txnIdInput)
    (he : normalizeTxnId e.txnId = normalizeTxnId txnIdInput)
    (hav : e.status = .AVAILABLE) :
    ((claimCreditsByTxnId store userId username txnIdInput freshId now).1 = .ok ∧
     (claimCreditsByTxnId store userId username txnIdInput freshId now).2.adminTxns =
       pre ++ claimEntry e userId (jsTrim username) now :: post ∧
     balanceOf (claimCreditsByTxnId store userId username txnIdInput freshId now).2 userId =
       balanceOf store userId + e.amount) ∧
    (∀ (s2 : WalletStoreFile) (u2 un2 tx2 f2 n2 : String), jsTrim u2 ≠ "" →
      normalizeTxnId tx2 ≠ "" →
      (∀ x ∈ s2.adminTxns, normalizeTxnId x.txnId ≠ normalizeTxnId tx2) →
      claimCreditsByTxnId s2 u2 un2 tx2 f2 n2 =
        (.fail "Transaction ID not registered by admin yet.", s2)) ∧
    (∀ (s2 : WalletStoreFile) (u2 un2 tx2 f2 n2 : String)
      (pre2 post2 : List AdminTxn) (e2 : AdminTxn),
      jsTrim u2 ≠ "" → normalizeTxnId tx2 ≠ "" →
      s2.adminTxns = pre2 ++ e2 :: post2 →
      (∀ x ∈ pre2, normalizeTxnId x.txnId ≠ normalizeTxnId tx2) →
      normalizeTxnId e2.txnId = normalizeTxnId tx2 →
      e2.status = .CLAIMED →
      claimCreditsByTxnId s2 u2 un2 tx2 f2 n2 =
        (.fail "This transaction ID has already been used.", s2)) ∧
    (∀ calls : List ClaimCall,
      (∀ c ∈ calls, normalizeTxnId c.txnIdInput = normalizeTxnId txnIdInput) →
      (∀ c ∈ calls, jsTrim c.userId = c.userId) →
      (runClaims store calls).1 ≤ 1 ∧
      sumBalances (runClaims store calls).2 =
        sumBalances store + e.amount * ((runClaims store calls).1 : ℤ)) := by
  refine ⟨?_, ?_, ?_, ?_⟩
  · have hsucc := claimCreditsByTxnId_success store userId username txnIdInput freshId now
      pre post e huid hne hntid hdecomp hpre he hav
    rw [hsucc]
    refine ⟨rfl, ?_, ?_⟩
    · rw [adminTxns_upsertWallet]
    · have hb := balanceOf_upsertWallet_self
        { store with adminTxns := pre ++ claimEntry e userId (jsTrim username) now :: post }
        userId
        (fun w =>
          { w with
            balance := w.balance + e.amount
            txns := WalletTxn.mk freshId .CREDIT e.amount
              ("UPI deposit claimed (Txn ID: " ++ e.txnId ++ ")") now :: w.txns })
        (fun _ => rfl)
      rw [hb]
      rfl
  · intro s2 u2 un2 tx2 f2 n2 hu2 hn2 hnone
    unfold claimCreditsByTxnId
    rw [if_neg hu2, if_neg hn2, scanClaim_notFound _ _ _ _ _ hnone]
  · intro s2 u2 un2 tx2 f2 n2 pre2 post2 e2 hu2 hn2 hd2 hp2 he2 hc2
    unfold claimCreditsByTxnId
    rw [if_neg hu2, if_neg hn2, hd2,
      scanClaim_found_claimed (normalizeTxnId tx2) (jsTrim u2) (jsTrim un2) n2
        pre2 post2 e2 hp2 he2 hc2]
  · intro calls hall hwf
    exact runClaims_availAt (normalizeTxnId txnIdInput) e.amount hntid calls store
      ⟨pre, e, post, hdecomp, hpre, he, hav, rfl⟩ hall hwf

/-- A registered-but-unclaimed deposit entry of amount 500. -/
def sampleEntry : AdminTxn :=
  { id := "e1", txnId := "TX 1", amount := 500, note := "Registered by admin",
    status := .AVAILABLE, registeredAt := "t0",
    claimedAt := none, claimedByUserId := none, claimedByUsername := none }

/-- A store holding only sampleEntry and no wallets. -/
def sampleDepositStore : WalletStoreFile :=
  { adminTxns := [sampleEntry], userWallets := [] }

/-- Witness for C2: claiming the registered id (spelled with different case
and spacing) succeeds and credits exactly 500. -/
theorem deposit_claim_exactly_once_witness :
    (claimCreditsByTxnId sampleDepositStore "u2" "bob" "tx1" "c1" "t1").1 = .ok ∧
    balanceOf (claimCreditsByTxnId sampleDepositStore "u2" "bob" "tx1" "c1" "t1").2 "u2" =
      balanceOf sampleDepositStore "u2" + 500 := by
  have h := (deposit_claim_exactly_once sampleDepositStore "u2" "bob" "tx1" "c1" "t1"
    [] [] sampleEntry (by decide) (by decide) (by decide) (by decide)
    (by intro x hx; cases hx) (by decide) (by decide)).1
  exact ⟨h.1, h.2.2⟩

/-! ## C10: frame property of deposit claiming -/

/-- C10: a successful claim modifies only the claimed entry and the claiming
user.  The admin list keeps every other entry verbatim; the claimed entry
keeps its id, txnId, amount, note and registeredAt and changes only the
status and the claim-stamp fields; the claimant gains exactly the credit and
keeps their withdrawals; every other user keeps balance, ledger and
withdrawals unchanged. -/
theorem deposit_claim_frame_property (store : WalletStoreFile)
    (userId username txnIdInput freshId now : String)
    (pre post : List AdminTxn) (e : AdminTxn)
    (huid : jsTrim userId = userId) (hne : userId ≠ "")
    (hntid : normalizeTxnId txnIdInput ≠ "")
    (hdecomp : store.adminTxns = pre ++ e :: post)
    (hpre : ∀ x ∈ pre, normalizeTxnId x.txnId ≠ normalizeTxnId txnIdInput)
    (he : normalizeTxnId e.txnId = normalizeTxnId txnIdInput)
    (hav : e.status = .AVAILABLE) :
    (claimCreditsByTxnId store userId username txnIdInput freshId now).1 = .ok ∧
    (claimCreditsByTxnId store userId username txnIdInput freshId now).2.adminTxns =
      pre ++ claimEntry e userId (jsTrim username) now :: post ∧
    (claimEntry e userId (jsTrim username) now).id = e.id ∧
    (claimEntry e userId (jsTrim username) now).txnId = e.txnId ∧
    (claimEntry e userId (jsTrim username) now).amount = e.amount ∧
    (claimEntry e userId (jsTrim username) now).note = e.note ∧
    (claimEntry e userId (jsTrim username) now).registeredAt = e.registeredAt ∧
    (claimEntry e userId (jsTrim username) now).status = .CLAIMED ∧
    (claimEntry e userId (jsTrim username) now).claimedAt = some now ∧
    (claimEntry e userId (jsTrim username) now).claimedByUserId = some userId ∧
    balanceOf (claimCreditsByTxnId store userId username txnIdInput freshId now).2 userId =
      balanceOf store userId + e.amount ∧
    txnsOf (claimCreditsByTxnId store userId username txnIdInput freshId now).2 userId =
      WalletTxn.mk freshId .CREDIT e.amount
        ("UPI deposit claimed (Txn ID: " ++ e.txnId ++ ")") now :: txnsOf store userId ∧
    withdrawalsOf (claimCreditsByTxnId store userId username txnIdInput freshId now).2 userId =
      withdrawalsOf store userId ∧
    (∀ uid' : String, uid' ≠ userId →
      balanceOf (claimCreditsByTxnId store userId username txnIdInput freshId now).2 uid' =
        balanceOf store uid' ∧
      txnsOf (claimCreditsByTxnId store userId username txnIdInput freshId now).2 uid' =
        txnsOf store uid' ∧
      withdrawalsOf (claimCreditsByTxnId store userId username txnIdInput freshId now).2 uid' =
        withdrawalsOf store uid') := by
  have hsucc := claimCreditsByTxnId_success store userId username txnIdInput freshId now
    pre post e huid hne hntid hdecomp hpre he hav
  rw [hsucc]
  have hpr : ∀ w : UserWallet,
      ((fun (w : UserWallet) =>
        { w with
          balance := w.balance + e.amount
          txns := WalletTxn.mk freshId .CREDIT e.amount
            ("UPI deposit claimed (Txn ID: " ++ e.txnId ++ ")") now :: w.txns }) w).userId =
        w.userId := fun _ => rfl
  refine ⟨rfl, ?_, rfl, rfl, rfl, rfl, rfl, rfl, rfl, rfl, ?_, ?_, ?_, ?_⟩
  · rw [adminTxns_upsertWallet]
  · rw [balanceOf_upsertWallet_self
      { store with adminTxns := pre ++ claimEntry e userId (jsTrim username) now :: post }
      userId _ hpr]
    rfl
  · rw [txnsOf_upsertWallet_self
      { store with adminTxns := pre ++ claimEntry e userId (jsTrim username) now :: post }
      userId _ hpr]
    rfl
  · rw [withdrawalsOf_upsertWallet_self
      { store with adminTxns := pre ++ claimEntry e userId (jsTrim username) now :: post }
      userId _ hpr]
    rfl
  · intro uid' hud
    refine ⟨?_, ?_, ?_⟩
    · rw [balanceOf_upsertWallet_ne
        { store with adminTxns := pre ++ claimEntry e userId (jsTrim username) now :: post }
        userId uid' _ hpr hud]
      rfl
    · rw [txnsOf_upsertWallet_ne
        { store with adminTxns := pre ++ claimEntry e userId (jsTrim username) now :: post }
        userId uid' _ hpr hud]
      rfl
    · rw [withdrawalsOf_upsertWallet_ne
        { store with adminTxns := pre ++ claimEntry e userId (jsTrim username) now :: post }
        userId uid' _ hpr hud]
      rfl

/-- Witness for C10: in a store with a second user, claiming credits leaves
that other user's balance untouched while the claim succeeds. -/
theorem deposit_claim_frame_property_witness :
    (claimCreditsByTxnId
      { adminTxns := [sampleEntry],
        userWallets := [{ userId := "ua", balance := 7, txns := [], withdrawals := [] }] }
      "u2" "bob" "tx1" "c1" "t1").1 = .ok ∧
    balanceOf (claimCreditsByTxnId
      { adminTxns := [sampleEntry],
        userWallets := [{ userId := "ua", balance := 7, txns := [], withdrawals := [] }] }
      "u2" "bob" "tx1" "c1" "t1").2 "ua" =
      balanceOf
        { adminTxns := [sampleEntry],
          userWallets := [{ userId := "ua", balance := 7, txns := [], withdrawals := [] }] }
        "ua" := by
  have h := deposit_claim_frame_property
    { adminTxns := [sampleEntry],
      userWallets := [{ userId := "ua", balance := 7, txns := [], withdrawals := [] }] }
    "u2" "bob" "tx1" "c1" "t1" [] [] sampleEntry
    (by decide) (by decide) (by decide) (by decide)
    (by intro x hx; cases hx) (by decide) (by decide)
  exact ⟨h.1, (h.2.2.2.2.2.2.2.2.2.2.2.2.2 "ua" (by decide)).1⟩

/-! ## Booking and tournament model (supabase route plus helpers) -/

/-- Embeds normalizeName from supabaseTournament: trim then lowercase. -/
def normalizeName (v : String) : String :=
  jsToLower (jsTrim v)

/-- Embeds normalizeBrMode. -/
def normalizeBrMode (v : String) : String :=
  let mode := jsToUpper v
  if mode = "DUO" ∨ mode = "SQUAD" then mode else "SOLO"

/-- Embeds inferTeamSize: non-BR is 1, otherwise DUO is 2, SQUAD is 4,
SOLO is 1. -/
def inferTeamSize (matchType : String) (brMode : String) : ℤ :=
  if matchType ≠ "BR" then 1
  else
    let mode := normalizeBrMode brMode
    if mode = "DUO" then 2 else if mode = "SQUAD" then 4 else 1

/-- The first-occurrence case-insensitive dedup step of normalizeTeamMembers
(filter by findIndex in the source), written with a seen-normalized-names
accumulator. -/
def dedupByNormalized (seen : List String) : List String → List String
  | [] => []
  | n :: rest =>
    if seen.contains (normalizeName n) then dedupByNormalized seen rest
    else n :: dedupByNormalized (normalizeName n :: seen) rest

/-- Embeds normalizeTeamMembers: trim entries, drop empties, fall back to the
trimmed fallback name, dedup case-insensitively keeping first occurrences,
truncate to the team size (at least 1). -/
def normalizeTeamMembers (input : List String) (fallbackName : String) (teamSize : ℤ) :
    List String :=
  let cleaned := (input.map jsTrim).filter (fun s => s ≠ "")
  let cleaned2 :=
    if cleaned.isEmpty ∧ jsTrim fallbackName ≠ "" then [jsTrim fallbackName] else cleaned
  (dedupByNormalized [] cleaned2).take (max 1 teamSize).toNat

/-- A row of the bookings table. -/
structure BookingRow where
  id : String
  tournamentId : String
  userId : String
  username : String
  playerName : String
  teamMembers : List String
  teamSize : ℤ
  slotNumber : ℤ
  status : String
deriving DecidableEq, Repr

/-- A row of the tournaments table.  dateTimeMs models the result of parsing
the date_time column (none when unparsable); room columns use the empty
string for null. -/
structure TournamentRow where
  id : String
  name : String
  matchType : String
  brMode : String
  status : String
  maxSlots : ℤ
  manualSoldSlots : ℤ
  bookedCount : ℤ
  entryFee : ℤ
  dateTimeMs : Option ℤ
  roomId : String
  roomPass : String
deriving DecidableEq, Repr

/-- The database visible to the booking route: the tournaments and bookings
tables plus the file-backed wallet store that spendCredits works on. -/
structure DB where
  tournaments : List TournamentRow
  bookings : List BookingRow
  wallet : WalletStoreFile
deriving DecidableEq, Repr

/-- Embeds bookingContainsName: the normalized name matches the captain
(player_name) or any team member. -/
def bookingContainsName (row : BookingRow) (normalizedName : String) : Bool :=
  if normalizedName = "" then false
  else if normalizeName row.playerName = normalizedName then true
  else row.teamMembers.any (fun m => normalizeName m == normalizedName)

/-- Embeds hasNameConflict from the booking route: some non-ignored row
contains one of the normalized names. -/
def hasNameConflict (existingRows : List BookingRow) (normalizedNames : List String)
    (ignoreBookingId : String) : Bool :=
  if normalizedNames.isEmpty then false
  else existingRows.any (fun row =>
    if ignoreBookingId ≠ "" ∧ row.id = ignoreBookingId then false
    else normalizedNames.any (fun name => bookingContainsName row name))

/-- Embeds computeTournamentStatus: COMPLETED is sticky, else FULL iff the
booked count reached max slots, else OPEN. -/
def computeTournamentStatus (rawStatus : String) (bookedCount maxSlots : ℤ) : String :=
  if jsToUpper rawStatus = "COMPLETED" then "COMPLETED"
  else if bookedCount ≥ maxSlots then "FULL" else "OPEN"

/-- Embeds clamp(value, min, max). -/
def clamp (value lo hi : ℤ) : ℤ := min hi (max lo value)

/-- Selecting a tournament row by id (single). -/
def findTournament (db : DB) (id : String) : Option TournamentRow :=
  db.tournaments.find? (fun t => t.id == id)

/-- Selecting the bookings of a tournament.  The order-by on slot_number is
omitted: every use below (count, max, name scan) is order-independent. -/
def tournamentBookings (db : DB) (tid : String) : List BookingRow :=
  db.bookings.filter (fun b => b.tournamentId == tid)

/-- Embeds recalcTournamentCounts: recompute the online count from booking
rows, clamp manual_sold_slots to the remaining capacity, derive booked_count
and status, and write them back.  The source only issues the update when a field
changed; the resulting row is the same either way, so the update is applied
unconditionally here. -/
def recalcTournamentCounts (db : DB) (tournamentId : String) : DB :=
  let id := jsTrim tournamentId
  if id = "" then db
  else
    match findTournament db id with
    | none => db
    | some t =>
      let onlineBookedCount : ℤ := (tournamentBookings db id).length
      let maxSlots := max 1 t.maxSlots
      let maxManualAllowed := max 0 (maxSlots - onlineBookedCount)
      let manualSoldSlots := clamp t.manualSoldSlots 0 maxManualAllowed
      let bookedCount := clamp (onlineBookedCount + manualSoldSlots) 0 maxSlots
      let status := computeTournamentStatus t.status bookedCount maxSlots
      { db with
        tournaments := db.tournaments.map (fun cur =>
          if cur.id == id then
            { cur with
              manualSoldSlots := manualSoldSlots
              bookedCount := bookedCount
              status := status }
          else cur) }

inductive PostOut where
  | ok (booking : BookingRow)
  | err (status : ℤ) (message : String) (code : String)
deriving DecidableEq, Repr

/-- Embeds the booking POST route (non update-team mode): validate input,
load the tournament, normalize the team, check name conflicts, capacity,
room publication, insert the booking with the next slot number, debit the
entry fee through walletStore.spendCredits with a compensating delete on
failure, and recalculate the tournament counters.  bookingId and ledgerId
stand for the generated row ids, now for the timestamp.  Plain errors carry
an empty code.  The route returns 500 when the rollback delete or the recalc
fails; neither can fail in this model (the delete always succeeds and the
tournament row still exists), so those branches do not appear. -/
def POSTcreateBooking (db : DB) (tournamentIdInput userIdInput usernameInput
    playerNameInput : String) (teamMembersInput : List String)
    (bookingId ledgerId now : String) : PostOut × DB :=
  let tournamentId := jsTrim tournamentIdInput
  if tournamentId = "" then (.err 400 "Tournament id is required." "", db)
  else
    let userId := jsTrim userIdInput
    let username := jsTrim usernameInput
    let playerName := jsTrim playerNameInput
    if userId = "" ∨ playerName = "" then
      (.err 400 "Invalid booking request. playerName and userId are required." "", db)
    else
      match findTournament db tournamentId with
      | none => (.err 404 "Tournament not found." "", db)
      | some t =>
        let matchType := if jsToUpper t.matchType = "CS" then "CS" else "BR"
        let teamSize := inferTeamSize matchType t.brMode
        let members := normalizeTeamMembers teamMembersInput playerName teamSize
        if members.isEmpty then
          (.err 400 "At least one player name is required." "", db)
        else
          let existingBookings := tournamentBookings db tournamentId
          let normalizedNames := (members.map normalizeName).filter (fun s => s ≠ "")
          if hasNameConflict existingBookings normalizedNames "" then
            (.err 400 "One or more team members are already booked in this tournament."
              "PLAYER_ALREADY_BOOKED", db)
          else
            let tournamentStatus := jsToUpper t.status
            let maxSlots := max 1 t.maxSlots
            let manualSold := max 0 t.manualSoldSlots
            let onlineBookedCount : ℤ := existingBookings.length
            let totalBooked := min maxSlots (onlineBookedCount + manualSold)
            let roomPublished := t.roomId ≠ "" ∨ t.roomPass ≠ ""
            let entryFee := max 0 t.entryFee
            if tournamentStatus = "COMPLETED" ∨ totalBooked ≥ maxSlots then
              (.err 400 "This tournament is full." "TOURNAMENT_FULL", db)
            else if roomPublished then
              (.err 400 "Booking is closed because Room ID and Password are already published."
                "ROOM_PUBLISHED", db)
            else
              let currentMaxSlot :=
                existingBookings.foldl (fun m row => max m row.slotNumber) 0
              let nextSlot := max 1 (currentMaxSlot + 1)
              let booking : BookingRow :=
                { id := bookingId, tournamentId := tournamentId, userId := userId,
                  username := username, playerName := members.headD "",
                  teamMembers := members, teamSize := teamSize, slotNumber := nextSlot,
                  status := "CONFIRMED" }
              let db1 : DB := { db with bookings := db.bookings ++ [booking] }
              if entryFee > 0 then
                let spend := spendCredits db1.wallet userId entryFee
                  ("Entry fee - " ++ t.name) ledgerId now
                match spend.1 with
                | .fail reason =>
                  let db2 : DB := { db1 with
                    wallet := spend.2
                    bookings := db1.bookings.filter (fun b =>
                      ¬(b.id = bookingId ∧ b.tournamentId = tournamentId)) }
                  (.err 400 reason "WALLET_DEBIT_FAILED",
                    recalcTournamentCounts db2 tournamentId)
                | .ok =>
                  let db2 : DB := { db1 with wallet := spend.2 }
                  (.ok booking, recalcTournamentCounts db2 tournamentId)
              else
                (.ok booking, recalcTournamentCounts db1 tournamentId)

/-- Embeds the update-team mode of the booking POST route: owner-checked
lookup, one-hour-before-start cutoff (skipped when the start is unparsable),
re-normalization of members, name-conflict check ignoring the edited
booking, and the row update.  nowMs models Date.now(). -/
def updateTeamMembersMode (db : DB) (tournamentId : String)
    (userIdInput bookingIdInput : String) (incomingNames : List String) (nowMs : ℤ) :
    PostOut × DB :=
  let userId := jsTrim userIdInput
  let bookingId := jsTrim bookingIdInput
  if userId = "" ∨ bookingId = "" then (.err 400 "Booking not found." "", db)
  else
    match findTournament db tournamentId with
    | none => (.err 404 "Tournament not found." "", db)
    | some t =>
      match db.bookings.find? (fun b =>
        b.id == bookingId && b.tournamentId == tournamentId && b.userId == userId) with
      | none => (.err 404 "Booking not found." "", db)
      | some existingBooking =>
        let cutoffBlocked :=
          match t.dateTimeMs with
          | some startMs => decide (nowMs > startMs - 60 * 60 * 1000)
          | none => false
        if cutoffBlocked then
          (.err 400 "Team names can only be updated up to 1 hour before start." "", db)
        else
          let teamSize := inferTeamSize
            (if jsToUpper t.matchType = "CS" then "CS" else "BR") t.brMode
          let nextMembers :=
            normalizeTeamMembers incomingNames existingBooking.playerName teamSize
          if nextMembers.isEmpty then
            (.err 400 "At least one player name is required." "", db)
          else
            let normalizedNames := (nextMembers.map normalizeName).filter (fun s => s ≠ "")
            let allBookings := tournamentBookings db tournamentId
            if hasNameConflict allBookings normalizedNames bookingId then
              (.err 400 "One or more team members are already booked in this tournament."
                "", db)
            else
              let updatedRow : BookingRow :=
                { existingBooking with
                  playerName := nextMembers.headD ""
                  teamMembers := nextMembers
                  teamSize := teamSize }
              (.ok updatedRow,
                { db with bookings := db.bookings.map (fun b =>
                  if b.id == bookingId && b.tournamentId == tournamentId &&
                      b.userId == userId then
                    { b with
                      playerName := nextMembers.headD ""
                      teamMembers := nextMembers
                      teamSize := teamSize }
                  else b) })

/-! ## Helper lemmas for the booking route -/

def PostOut.isOk : PostOut → Bool
  | .ok _ => true
  | .err _ _ _ => false

theorem spendCredits_ok_or_frame (s : WalletStoreFile) (u : String) (a : ℤ)
    (n i t : String) :
    (spendCredits s u a n i t).1 = .ok ∨ (spendCredits s u a n i t).2 = s := by
  unfold spendCredits
  dsimp only
  split
  · right; rfl
  · split
    · right; rfl
    · split
      · right; rfl
      · left; rfl

theorem spendCredits_not_ok_frame (s : WalletStoreFile) (u : String) (a : ℤ)
    (n i t : String) (h : (spendCredits s u a n i t).1 ≠ .ok) :
    (spendCredits s u a n i t).2 = s :=
  (spendCredits_ok_or_frame s u a n i t).resolve_left h

theorem spendCredits_insufficient_not_ok (s : WalletStoreFile) (u : String) (a : ℤ)
    (n i t : String) (hu : jsTrim u = u) (hlt : balanceOf s u < a) :
    (spendCredits s u a n i t).1 ≠ .ok := by
  by_cases h1 : u = ""
  · unfold spendCredits
    rw [hu, if_pos h1]
    simp
  · by_cases h2 : a ≤ 0
    · unfold spendCredits
      rw [hu, if_neg h1, if_pos h2]
      simp
    · unfold spendCredits
      rw [hu, if_neg h1, if_neg h2, if_pos hlt]
      simp

theorem spendCredits_insufficient_eq (s : WalletStoreFile) (u : String) (a : ℤ)
    (n i t : String) (hu : jsTrim u = u) (hune : u ≠ "") (hpos : 0 < a)
    (hlt : balanceOf s u < a) :
    spendCredits s u a n i t = (.fail "Not enough balance.", s) := by
  unfold spendCredits
  rw [hu, if_neg hune, if_neg (by omega : ¬ a ≤ 0), if_pos hlt]

theorem bookings_recalcTournamentCounts (db : DB) (tid : String) :
    (recalcTournamentCounts db tid).bookings = db.bookings := by
  unfold recalcTournamentCounts
  dsimp only
  split
  · rfl
  · split <;> rfl

theorem wallet_recalcTournamentCounts (db : DB) (tid : String) :
    (recalcTournamentCounts db tid).wallet = db.wallet := by
  unfold recalcTournamentCounts
  dsimp only
  split
  · rfl
  · split <;> rfl

theorem find?_map_update
    (l : List TournamentRow) (id : String) (f : TournamentRow → TournamentRow)
    (t : TournamentRow) (hf : ∀ x, (f x).id = x.id)
    (h : l.find? (fun x => x.id == id) = some t) :
    (l.map (fun x => if x.id == id then f x else x)).find? (fun x => x.id == id) =
      some (f t) := by
  induction l with
  | nil => simp at h
  | cons y ys ih =>
    cases hy : y.id == id with
    | true =>
      simp only [List.find?_cons, hy] at h
      injection h with h
      subst h
      simp only [List.map_cons, hy, if_true, List.find?_cons, hf y]
    | false =>
      simp only [List.find?_cons, hy] at h
      simp only [List.map_cons, hy, Bool.false_eq_true, if_false, List.find?_cons]
      exact ih h

theorem eq_of_mem_nodup_id {l : List TournamentRow}
    (h : (l.map (fun x => x.id)).Nodup) {x y : TournamentRow}
    (hx : x ∈ l) (hy : y ∈ l) (hxy : x.id = y.id) : x = y := by
  induction l with
  | nil => simp at hx
  | cons z zs ih =>
    simp only [List.map_cons, List.nodup_cons] at h
    rcases List.mem_cons.mp hx with rfl | hx' <;>
      rcases List.mem_cons.mp hy with rfl | hy'
    · rfl
    · exact absurd (by rw [hxy]; exact List.mem_map_of_mem _ hy') h.1
    · exact absurd (by rw [← hxy]; exact List.mem_map_of_mem _ hx') h.1
    · exact ih h.2 hx' hy'

theorem le_foldl_max_slot (l : List BookingRow) (seed : ℤ) :
    seed ≤ l.foldl (fun m row => max m row.slotNumber) seed := by
  induction l generalizing seed with
  | nil => simp
  | cons b bs ih =>
    calc seed ≤ max seed b.slotNumber := le_max_left _ _
    _ ≤ bs.foldl (fun m row => max m row.slotNumber) (max seed b.slotNumber) := ih _

theorem mem_le_foldl_max_slot (l : List BookingRow) :
    ∀ (seed : ℤ) (b : BookingRow), b ∈ l →
      b.slotNumber ≤ l.foldl (fun m row => max m row.slotNumber) seed := by
  induction l with
  | nil =>
    intro seed b hb
    simp at hb
  | cons x xs ih =>
    intro seed b hb
    rcases List.mem_cons.mp hb with rfl | hb'
    · calc b.slotNumber ≤ max seed b.slotNumber := le_max_right _ _
        _ ≤ xs.foldl (fun m row => max m row.slotNumber) (max seed b.slotNumber) :=
          le_foldl_max_slot xs _
    · exact ih _ b hb' 

/-! ## C9: counter reconciliation -/

/-- C9: recalcTournamentCounts clamps manualSoldSlots into the interval from
0 to the remaining capacity after online bookings (empty-interval collapse to
0 when online bookings exceed max slots), sets bookedCount to the minimum of
maxSlots and online plus clamped manual, and derives the status with sticky
COMPLETED, else FULL exactly when bookedCount reached maxSlots, else OPEN.
maxSlots is read through the guard max 1 of the source. -/
theorem recalc_counter_reconciliation (db : DB) (tid : String) (t : TournamentRow)
    (htid : jsTrim tid = tid) (hne : tid ≠ "")
    (hfind : findTournament db tid = some t) :
    ∃ r : TournamentRow,
      findTournament (recalcTournamentCounts db tid) tid = some r ∧
      r.manualSoldSlots = clamp t.manualSoldSlots 0
        (max 0 (max 1 t.maxSlots - ((tournamentBookings db tid).length : ℤ))) ∧
      0 ≤ r.manualSoldSlots ∧
      r.manualSoldSlots ≤
        max 0 (max 1 t.maxSlots - ((tournamentBookings db tid).length : ℤ)) ∧
      r.bookedCount =
        min (max 1 t.maxSlots)
          (((tournamentBookings db tid).length : ℤ) + r.manualSoldSlots) ∧
      r.status =
        (if jsToUpper t.status = "COMPLETED" then "COMPLETED"
         else if r.bookedCount ≥ max 1 t.maxSlots then "FULL" else "OPEN") ∧
      r.id = t.id ∧ r.maxSlots = t.maxSlots ∧ r.entryFee = t.entryFee ∧
      (recalcTournamentCounts db tid).bookings = db.bookings := by
  have hbody : recalcTournamentCounts db tid =
      { db with
        tournaments := db.tournaments.map (fun cur =>
          if cur.id == tid then
            { cur with
              manualSoldSlots := clamp t.manualSoldSlots 0
                (max 0 (max 1 t.maxSlots - ((tournamentBookings db tid).length : ℤ)))
              bookedCount := clamp
                (((tournamentBookings db tid).length : ℤ) +
                  clamp t.manualSoldSlots 0
                    (max 0 (max 1 t.maxSlots - ((tournamentBookings db tid).length : ℤ))))
                0 (max 1 t.maxSlots)
              status := computeTournamentStatus t.status
                (clamp
                  (((tournamentBookings db tid).length : ℤ) +
                    clamp t.manualSoldSlots 0
                      (max 0 (max 1 t.maxSlots - ((tournamentBookings db tid).length : ℤ))))
                  0 (max 1 t.maxSlots))
                (max 1 t.maxSlots) }
          else cur) } := by
    unfold recalcTournamentCounts
    rw [htid, if_neg hne, hfind]
  have honline : (0 : ℤ) ≤ ((tournamentBookings db tid).length : ℤ) := Int.ofNat_nonneg _
  have hmanual : 0 ≤ clamp t.manualSoldSlots 0
      (max 0 (max 1 t.maxSlots - ((tournamentBookings db tid).length : ℤ))) := by
    unfold clamp
    omega
  have hbooked : clamp
      (((tournamentBookings db tid).length : ℤ) +
        clamp t.manualSoldSlots 0
          (max 0 (max 1 t.maxSlots - ((tournamentBookings db tid).length : ℤ))))
      0 (max 1 t.maxSlots) =
      min (max 1 t.maxSlots)
        (((tournamentBookings db tid).length : ℤ) +
          clamp t.manualSoldSlots 0
            (max 0 (max 1 t.maxSlots - ((tournamentBookings db tid).length : ℤ)))) := by
    unfold clamp
    omega
  have hfr : findTournament (recalcTournamentCounts db tid) tid = some
      { t with
        manualSoldSlots := clamp t.manualSoldSlots 0
          (max 0 (max 1 t.maxSlots - ((tournamentBookings db tid).length : ℤ)))
        bookedCount := clamp
          (((tournamentBookings db tid).length : ℤ) +
            clamp t.manualSoldSlots 0
              (max 0 (max 1 t.maxSlots - ((tournamentBookings db tid).length : ℤ))))
          0 (max 1 t.maxSlots)
        status := computeTournamentStatus t.status
          (clamp
            (((tournamentBookings db tid).length : ℤ) +
              clamp t.manualSoldSlots 0
                (max 0 (max 1 t.maxSlots - ((tournamentBookings db tid).length : ℤ))))
            0 (max 1 t.maxSlots))
          (max 1 t.maxSlots) } := by
    rw [hbody]
    unfold findTournament at hfind ⊢
    exact find?_map_update db.tournaments tid _ t (fun _ => rfl) hfind
  refine ⟨_, hfr, rfl, hmanual, ?_, ?_, ?_, rfl, rfl, rfl, ?_⟩
  · show clamp t.manualSoldSlots 0 _ ≤ _
    unfold clamp
    omega
  · exact hbooked
  · show computeTournamentStatus t.status _ _ = _
    unfold computeTournamentStatus
    rw [hbooked]
  · rw [hbody]

/-- A tournament with stale stored counters for the C9 witness: 1 online
booking, manual sold 5, max slots 4. -/
def staleTournament : TournamentRow :=
  { id := "T9", name := "Cup", matchType := "CS", brMode := "", status := "open",
    maxSlots := 4, manualSoldSlots := 5, bookedCount := 0, entryFee := 0,
    dateTimeMs := none, roomId := "", roomPass := "" }

def staleBooking : BookingRow :=
  { id := "b9", tournamentId := "T9", userId := "u9", username := "", playerName := "P",
    teamMembers := ["P"], teamSize := 1, slotNumber := 1, status := "CONFIRMED" }

def staleDB : DB :=
  { tournaments := [staleTournament], bookings := [staleBooking],
    wallet := emptyWalletStore }

/-- Witness for C9: on the stale tournament the manual count clamps from 5
down to 3, the booked count becomes 4 and the status becomes FULL. -/
theorem recalc_counter_reconciliation_witness :
    ∃ r : TournamentRow,
      findTournament (recalcTournamentCounts staleDB "T9") "T9" = some r ∧
      r.manualSoldSlots = clamp staleTournament.manualSoldSlots 0
        (max 0 (max 1 staleTournament.maxSlots -
          ((tournamentBookings staleDB "T9").length : ℤ))) ∧
      0 ≤ r.manualSoldSlots ∧
      r.manualSoldSlots ≤ max 0 (max 1 staleTournament.maxSlots -
        ((tournamentBookings staleDB "T9").length : ℤ)) ∧
      r.bookedCount = min (max 1 staleTournament.maxSlots)
        (((tournamentBookings staleDB "T9").length : ℤ) + r.manualSoldSlots) ∧
      r.status =
        (if jsToUpper staleTournament.status = "COMPLETED" then "COMPLETED"
         else if r.bookedCount ≥ max 1 staleTournament.maxSlots then "FULL" else "OPEN") ∧
      r.id = staleTournament.id ∧ r.maxSlots = staleTournament.maxSlots ∧
      r.entryFee = staleTournament.entryFee ∧
      (recalcTournamentCounts staleDB "T9").bookings = staleDB.bookings :=
  recalc_counter_reconciliation staleDB "T9" staleTournament
    (by decide) (by decide) (by decide)

/-! ## C1: fee-debit atomicity of booking -/

/-- C1: when the entry fee is positive and the user balance is below it,
the booking attempt never yields a live booking: the result is not ok, the
bookings table and the wallet store are exactly as before the attempt (the
just-inserted row is compensating-deleted), and the balance is unchanged;
when the attempt passes every earlier guard the failure is exactly the
insufficient-balance error with code WALLET_DEBIT_FAILED and the final state
is the pre-attempt database with only the counters recalculated. -/
theorem fee_debit_atomicity (db : DB)
    (tournamentIdInput userIdInput usernameInput playerNameInput : String)
    (teamMembersInput : List String) (bookingId ledgerId now : String)
    (t : TournamentRow)
    (htid : jsTrim tournamentIdInput = tournamentIdInput)
    (huid : jsTrim userIdInput = userIdInput)
    (hfind : findTournament db tournamentIdInput = some t)
    (hfee : 0 < max 0 t.entryFee)
    (hbal : balanceOf db.wallet userIdInput < max 0 t.entryFee)
    (hfresh : ∀ b ∈ db.bookings, b.id ≠ bookingId) :
    ((POSTcreateBooking db tournamentIdInput userIdInput usernameInput playerNameInput
        teamMembersInput bookingId ledgerId now).1.isOk = false ∧
     (POSTcreateBooking db tournamentIdInput userIdInput usernameInput playerNameInput
        teamMembersInput bookingId ledgerId now).2.bookings = db.bookings ∧
     (POSTcreateBooking db tournamentIdInput userIdInput usernameInput playerNameInput
        teamMembersInput bookingId ledgerId now).2.wallet = db.wallet ∧
     balanceOf (POSTcreateBooking db tournamentIdInput userIdInput usernameInput
        playerNameInput teamMembersInput bookingId ledgerId now).2.wallet userIdInput =
       balanceOf db.wallet userIdInput) ∧
    (tournamentIdInput ≠ "" → userIdInput ≠ "" →
     jsTrim playerNameInput = playerNameInput → playerNameInput ≠ "" →
     normalizeTeamMembers teamMembersInput playerNameInput
       (inferTeamSize (if jsToUpper t.matchType = "CS" then "CS" else "BR") t.brMode) ≠ [] →
     hasNameConflict (tournamentBookings db tournamentIdInput)
       (((normalizeTeamMembers teamMembersInput playerNameInput
          (inferTeamSize (if jsToUpper t.matchType = "CS" then "CS" else "BR")
            t.brMode)).map normalizeName).filter (fun s => s ≠ "")) "" = false →
     ¬(jsToUpper t.status = "COMPLETED" ∨
        min (max 1 t.maxSlots)
          (((tournamentBookings db tournamentIdInput).length : ℤ) +
            max 0 t.manualSoldSlots) ≥ max 1 t.maxSlots) →
     t.roomId = "" → t.roomPass = "" →
     POSTcreateBooking db tournamentIdInput userIdInput usernameInput playerNameInput
        teamMembersInput bookingId ledgerId now =
       (.err 400 "Not enough balance." "WALLET_DEBIT_FAILED",
        recalcTournamentCounts db tournamentIdInput)) := by
  have hkeep : db.bookings.filter (fun b =>
      ¬(b.id = bookingId ∧ b.tournamentId = tournamentIdInput)) = db.bookings :=
    List.filter_eq_self.mpr (fun b hb => by simp [hfresh b hb])
  constructor
  · have hcore : (POSTcreateBooking db tournamentIdInput userIdInput usernameInput
        playerNameInput teamMembersInput bookingId ledgerId now).1.isOk = false ∧
      (POSTcreateBooking db tournamentIdInput userIdInput usernameInput playerNameInput
        teamMembersInput bookingId ledgerId now).2.bookings = db.bookings ∧
      (POSTcreateBooking db tournamentIdInput userIdInput usernameInput playerNameInput
        teamMembersInput bookingId ledgerId now).2.wallet = db.wallet := by
      unfold POSTcreateBooking
      dsimp only
      rw [htid, huid, hfind]
      dsimp only
      repeat' split
      all_goals
        first
        | exact ⟨rfl, rfl, rfl⟩
        | (rename_i heq
           exact absurd heq (spendCredits_insufficient_not_ok _ _ _ _ _ _ huid hbal))
        | (refine ⟨rfl, ?_, ?_⟩
           · rw [bookings_recalcTournamentCounts]
             dsimp only
             rw [List.filter_append, hkeep]
             simp
           · rw [wallet_recalcTournamentCounts]
             dsimp only
             rename_i heq
             exact spendCredits_not_ok_frame _ _ _ _ _ _ (by rw [heq]; simp))
    exact ⟨hcore.1, hcore.2.1, hcore.2.2, by rw [hcore.2.2]⟩
  · intro htne hu hpn hp hmem hconf hcap hroom1 hroom2
    simp only [decide_not] at hconf
    unfold POSTcreateBooking
    dsimp only
    rw [htid, huid, hpn, hfind]
    dsimp only
    rw [if_neg htne, if_neg (not_or.mpr ⟨hu, hp⟩),
      if_neg (fun h => hmem (by simpa using h)), if_neg (by simp [hconf]),
      if_neg hcap, if_neg (by simp [hroom1, hroom2]), if_pos hfee,
      spendCredits_insufficient_eq db.wallet userIdInput (max 0 t.entryFee)
        ("Entry fee - " ++ t.name) ledgerId now huid hu hfee hbal]
    dsimp only
    rw [List.filter_append, hkeep]
    simp

/-- A fee-bearing open tournament for the C1 witness. -/
def feeTournament : TournamentRow :=
  { id := "T1", name := "Cup", matchType := "BR", brMode := "SOLO", status := "OPEN",
    maxSlots := 2, manualSoldSlots := 0, bookedCount := 0, entryFee := 100,
    dateTimeMs := none, roomId := "", roomPass := "" }

/-- A database where user u has balance 50, below the 100 entry fee. -/
def feePoorDB : DB :=
  { tournaments := [feeTournament], bookings := [], wallet := sampleStore50 }

/-- Witness for C1: booking with balance 50 against fee 100 leaves no
booking row and the balance untouched. -/
theorem fee_debit_atomicity_witness :
    (POSTcreateBooking feePoorDB "T1" "u" "" "Alice" [] "b1" "l1" "n1").1.isOk = false ∧
    (POSTcreateBooking feePoorDB "T1" "u" "" "Alice" [] "b1" "l1" "n1").2.bookings =
      feePoorDB.bookings ∧
    balanceOf (POSTcreateBooking feePoorDB "T1" "u" "" "Alice" [] "b1" "l1" "n1").2.wallet
      "u" = balanceOf feePoorDB.wallet "u" := by
  have h := fee_debit_atomicity feePoorDB "T1" "u" "" "Alice" [] "b1" "l1" "n1"
    feeTournament (by decide) (by decide) (by decide) (by decide) (by decide)
    (by intro b hb; cases hb)
  exact ⟨h.1.1, h.1.2.1, h.1.2.2.2⟩

theorem hasNameConflict_noignore_iff (rows : List BookingRow) (names : List String) :
    hasNameConflict rows names "" = true ↔
      ∃ b ∈ rows, ∃ nm ∈ names, bookingContainsName b nm = true := by
  unfold hasNameConflict
  cases names <;> simp [List.any_eq_true]

theorem hasNameConflict_ignore_iff (rows : List BookingRow) (names : List String)
    (bid : String) (hbid : bid ≠ "") :
    hasNameConflict rows names bid = true ↔
      ∃ b ∈ rows, b.id ≠ bid ∧ ∃ nm ∈ names, bookingContainsName b nm = true := by
  unfold hasNameConflict
  cases names with
  | nil => simp
  | cons n ns =>
    rw [if_neg (by simp)]
    simp only [List.any_eq_true]
    constructor
    · rintro ⟨b, hb, h⟩
      by_cases hb2 : b.id = bid
      · rw [if_pos ⟨hbid, hb2⟩] at h
        cases h
      · rw [if_neg (fun hc => hb2 hc.2)] at h
        obtain ⟨nm, hnm, hc⟩ := List.any_eq_true.mp h
        exact ⟨b, hb, hb2, nm, hnm, hc⟩
    · rintro ⟨b, hb, hb2, nm, hnm, hc⟩
      refine ⟨b, hb, ?_⟩
      rw [if_neg (fun hx => hb2 hx.2)]
      exact List.any_eq_true.mpr ⟨nm, hnm, hc⟩

/-! ## C6: name-conflict invariant -/

/-- C6: within one tournament no normalized name may appear twice.  A
booking attempt whose normalized incoming team hits a name that already
appears, as captain or member, in a booking of this tournament fails with
PLAYER_ALREADY_BOOKED and changes nothing; when no booking of this
tournament holds any of the names the attempt is never rejected with that
code (names in other tournaments are invisible to the check, which only
scans this tournament's rows); and the update-team mode applies the same
check against all bookings except the edited one, characterized exactly by
hasNameConflict with the edited id ignored. -/
theorem name_conflict_invariant (db : DB)
    (tournamentIdInput userIdInput usernameInput playerNameInput : String)
    (teamMembersInput : List String) (bookingId ledgerId now : String)
    (t : TournamentRow)
    (htid : jsTrim tournamentIdInput = tournamentIdInput) (htne : tournamentIdInput ≠ "")
    (huid : jsTrim userIdInput = userIdInput) (hu : userIdInput ≠ "")
    (hpn : jsTrim playerNameInput = playerNameInput) (hp : playerNameInput ≠ "")
    (hfind : findTournament db tournamentIdInput = some t)
    (hmem : normalizeTeamMembers teamMembersInput playerNameInput
      (inferTeamSize (if jsToUpper t.matchType = "CS" then "CS" else "BR") t.brMode) ≠ []) :
    ((∃ b ∈ tournamentBookings db tournamentIdInput,
        ∃ nm ∈ ((normalizeTeamMembers teamMembersInput playerNameInput
            (inferTeamSize (if jsToUpper t.matchType = "CS" then "CS" else "BR")
              t.brMode)).map normalizeName).filter (fun s => s ≠ ""),
          bookingContainsName b nm = true) →
      POSTcreateBooking db tournamentIdInput userIdInput usernameInput playerNameInput
        teamMembersInput bookingId ledgerId now =
        (.err 400 "One or more team members are already booked in this tournament."
          "PLAYER_ALREADY_BOOKED", db)) ∧
    ((¬ ∃ b ∈ tournamentBookings db tournamentIdInput,
        ∃ nm ∈ ((normalizeTeamMembers teamMembersInput playerNameInput
            (inferTeamSize (if jsToUpper t.matchType = "CS" then "CS" else "BR")
              t.brMode)).map normalizeName).filter (fun s => s ≠ ""),
          bookingContainsName b nm = true) →
      ∀ (st : ℤ) (msg : String),
        (POSTcreateBooking db tournamentIdInput userIdInput usernameInput playerNameInput
          teamMembersInput bookingId ledgerId now).1 ≠
            .err st msg "PLAYER_ALREADY_BOOKED") ∧
    (∀ (bookingIdInput : String) (incomingNames : List String) (nowMs : ℤ)
        (eb : BookingRow),
      jsTrim bookingIdInput = bookingIdInput → bookingIdInput ≠ "" →
      db.bookings.find? (fun b => b.id == bookingIdInput &&
        b.tournamentId == tournamentIdInput && b.userId == userIdInput) = some eb →
      (∀ startMs, t.dateTimeMs = some startMs → nowMs ≤ startMs - 60 * 60 * 1000) →
      normalizeTeamMembers incomingNames eb.playerName
        (inferTeamSize (if jsToUpper t.matchType = "CS" then "CS" else "BR") t.brMode) ≠
        [] →
      ((hasNameConflict (tournamentBookings db tournamentIdInput)
          (((normalizeTeamMembers incomingNames eb.playerName
              (inferTeamSize (if jsToUpper t.matchType = "CS" then "CS" else "BR")
                t.brMode)).map normalizeName).filter (fun s => s ≠ ""))
          bookingIdInput = true →
        updateTeamMembersMode db tournamentIdInput userIdInput bookingIdInput
          incomingNames nowMs =
          (.err 400 "One or more team members are already booked in this tournament." "",
            db)) ∧
       (hasNameConflict (tournamentBookings db tournamentIdInput)
          (((normalizeTeamMembers incomingNames eb.playerName
              (inferTeamSize (if jsToUpper t.matchType = "CS" then "CS" else "BR")
                t.brMode)).map normalizeName).filter (fun s => s ≠ ""))
          bookingIdInput = true ↔
         ∃ b ∈ tournamentBookings db tournamentIdInput, b.id ≠ bookingIdInput ∧
           ∃ nm ∈ ((normalizeTeamMembers incomingNames eb.playerName
              (inferTeamSize (if jsToUpper t.matchType = "CS" then "CS" else "BR")
                t.brMode)).map normalizeName).filter (fun s => s ≠ ""),
             bookingContainsName b nm = true))) := by
  refine ⟨?_, ?_, ?_⟩
  · intro hconfEx
    have hc := (hasNameConflict_noignore_iff _ _).mpr hconfEx
    unfold POSTcreateBooking
    dsimp only
    rw [htid, huid, hpn, hfind]
    dsimp only
    rw [if_neg htne, if_neg (not_or.mpr ⟨hu, hp⟩),
      if_neg (fun h => hmem (by simpa using h)), if_pos hc]
  · intro hnoconf st msg
    have hc : hasNameConflict (tournamentBookings db tournamentIdInput)
        (((normalizeTeamMembers teamMembersInput playerNameInput
          (inferTeamSize (if jsToUpper t.matchType = "CS" then "CS" else "BR")
            t.brMode)).map normalizeName).filter (fun s => s ≠ "")) "" = false := by
      cases hval : hasNameConflict (tournamentBookings db tournamentIdInput)
        (((normalizeTeamMembers teamMembersInput playerNameInput
          (inferTeamSize (if jsToUpper t.matchType = "CS" then "CS" else "BR")
            t.brMode)).map normalizeName).filter (fun s => s ≠ "")) "" with
      | false => rfl
      | true => exact absurd ((hasNameConflict_noignore_iff _ _).mp hval) hnoconf
    unfold POSTcreateBooking
    dsimp only
    rw [htid, huid, hpn, hfind]
    dsimp only
    rw [if_neg htne, if_neg (not_or.mpr ⟨hu, hp⟩),
      if_neg (fun h => hmem (by simpa using h)),
      if_neg (by simp only [decide_not] at hc; simp [hc])]
    repeat' split
    all_goals simp
  · intro bookingIdInput incomingNames nowMs eb hbid hbne hfindb hcut hmem2
    have hstep : ∀ out : PostOut × DB,
        (hasNameConflict (tournamentBookings db tournamentIdInput)
          (((normalizeTeamMembers incomingNames eb.playerName
              (inferTeamSize (if jsToUpper t.matchType = "CS" then "CS" else "BR")
                t.brMode)).map normalizeName).filter (fun s => s ≠ ""))
          bookingIdInput = true →
          updateTeamMembersMode db tournamentIdInput userIdInput bookingIdInput
            incomingNames nowMs =
            (.err 400 "One or more team members are already booked in this tournament."
              "", db)) := by
      intro _
      intro hcval
      have hc := hcval
      unfold updateTeamMembersMode
      dsimp only
      rw [huid, hbid]
      rw [if_neg (not_or.mpr ⟨hu, hbne⟩), hfind]
      dsimp only
      rw [hfindb]
      dsimp only
      cases hdt : t.dateTimeMs with
      | none =>
        dsimp only
        rw [if_neg (by simp), if_neg (fun h => hmem2 (by simpa using h)), if_pos hc]
      | some startMs =>
        dsimp only
        rw [if_neg (by
            simp only [decide_eq_true_eq]
            have := hcut startMs hdt
            omega),
          if_neg (fun h => hmem2 (by simpa using h)), if_pos hc]
    exact ⟨hstep (.err 0 "" "", db), hasNameConflict_ignore_iff _ _ _ hbne⟩

/-- A DUO tournament holding a booking for Alice, for the C6 witness. -/
def duoTournament : TournamentRow :=
  { id := "TA", name := "A", matchType := "BR", brMode := "DUO", status := "OPEN",
    maxSlots := 26, manualSoldSlots := 0, bookedCount := 1, entryFee := 0,
    dateTimeMs := none, roomId := "", roomPass := "" }

/-- A second, unrelated tournament for the C6 witness. -/
def otherTournament : TournamentRow :=
  { id := "TB", name := "B", matchType := "BR", brMode := "SOLO", status := "OPEN",
    maxSlots := 48, manualSoldSlots := 0, bookedCount := 0, entryFee := 0,
    dateTimeMs := none, roomId := "", roomPass := "" }

def aliceBooking : BookingRow :=
  { id := "ba", tournamentId := "TA", userId := "u1", username := "",
    playerName := "Alice", teamMembers := ["Alice"], teamSize := 2, slotNumber := 1,
    status := "CONFIRMED" }

def conflictDB : DB :=
  { tournaments := [duoTournament, otherTournament], bookings := [aliceBooking],
    wallet := emptyWalletStore }

/-- Witness for C6: booking the team Bob and Alice in the tournament that
already holds Alice fails with the conflict code, while booking Alice in the
other tournament is not rejected for that reason. -/
theorem name_conflict_invariant_witness :
    POSTcreateBooking conflictDB "TA" "u2" "" "Bob" ["Bob", "Alice"] "b2" "l2" "n2" =
      (.err 400 "One or more team members are already booked in this tournament."
        "PLAYER_ALREADY_BOOKED", conflictDB) ∧
    (POSTcreateBooking conflictDB "TB" "u3" "" "Alice" ["Alice"] "b3" "l3" "n3").1 ≠
      .err 400 "One or more team members are already booked in this tournament."
        "PLAYER_ALREADY_BOOKED" := by
  constructor
  · exact (name_conflict_invariant conflictDB "TA" "u2" "" "Bob" ["Bob", "Alice"]
      "b2" "l2" "n2" duoTournament (by decide) (by decide) (by decide) (by decide)
      (by decide) (by decide) (by decide) (by decide)).1 (by decide)
  · exact (name_conflict_invariant conflictDB "TB" "u3" "" "Alice" ["Alice"]
      "b3" "l3" "n3" otherTournament (by decide) (by decide) (by decide) (by decide)
      (by decide) (by decide) (by decide) (by decide)).2.1 (by decide) 400
      "One or more team members are already booked in this tournament."

/-! ## Counting and capacity helpers -/

theorem count_append_same (l : List BookingRow) (b : BookingRow) (tid : String)
    (hb : b.tournamentId = tid) :
    ((l ++ [b]).filter (fun x => x.tournamentId == tid)).length =
      (l.filter (fun x => x.tournamentId == tid)).length + 1 := by
  rw [List.filter_append]
  simp [List.filter_cons, hb]

theorem count_append_other (l : List BookingRow) (b : BookingRow) (tid : String)
    (hb : b.tournamentId ≠ tid) :
    ((l ++ [b]).filter (fun x => x.tournamentId == tid)).length =
      (l.filter (fun x => x.tournamentId == tid)).length := by
  rw [List.filter_append]
  simp [List.filter_cons, hb]

theorem count_filter_le (l : List BookingRow) (P : BookingRow → Bool) (tid : String) :
    ((l.filter P).filter (fun x => x.tournamentId == tid)).length ≤
      (l.filter (fun x => x.tournamentId == tid)).length :=
  List.Sublist.length_le ((List.filter_sublist l).filter _)

/-- Per-tournament capacity invariant: live bookings plus the stored manual
sold slots never exceed the effective max slots. -/
def capInv (db : DB) : Prop :=
  ∀ t ∈ db.tournaments,
    ((db.bookings.filter (fun b => b.tournamentId == t.id)).length : ℤ) +
      t.manualSoldSlots ≤ max 1 t.maxSlots

theorem capInv_recalc (db : DB) (tid : String) (t : TournamentRow)
    (htid : jsTrim tid = tid) (hne : tid ≠ "")
    (hfind : findTournament db tid = some t)
    (hnodup : (db.tournaments.map (fun x => x.id)).Nodup)
    (hother : ∀ t' ∈ db.tournaments, t'.id ≠ tid →
      ((db.bookings.filter (fun b => b.tournamentId == t'.id)).length : ℤ) +
        t'.manualSoldSlots ≤ max 1 t'.maxSlots)
    (honline : ((db.bookings.filter (fun b => b.tournamentId == tid)).length : ℤ) ≤
      max 1 t.maxSlots) :
    capInv (recalcTournamentCounts db tid) := by
  have hmemt : t ∈ db.tournaments := List.mem_of_find?_eq_some hfind
  have htidt : t.id = tid := by
    have := List.find?_some hfind
    simpa using this
  have hbody : recalcTournamentCounts db tid =
      { db with
        tournaments := db.tournaments.map (fun cur =>
          if cur.id == tid then
            { cur with
              manualSoldSlots := clamp t.manualSoldSlots 0
                (max 0 (max 1 t.maxSlots - ((tournamentBookings db tid).length : ℤ)))
              bookedCount := clamp
                (((tournamentBookings db tid).length : ℤ) +
                  clamp t.manualSoldSlots 0
                    (max 0 (max 1 t.maxSlots - ((tournamentBookings db tid).length : ℤ))))
                0 (max 1 t.maxSlots)
              status := computeTournamentStatus t.status
                (clamp
                  (((tournamentBookings db tid).length : ℤ) +
                    clamp t.manualSoldSlots 0
                      (max 0 (max 1 t.maxSlots - ((tournamentBookings db tid).length : ℤ))))
                  0 (max 1 t.maxSlots))
                (max 1 t.maxSlots) }
          else cur) } := by
    unfold recalcTournamentCounts
    rw [htid, if_neg hne, hfind]
  rw [hbody]
  intro t' ht'
  obtain ⟨cur, hcur, rfl⟩ := List.mem_map.mp ht'
  by_cases hcid : cur.id = tid
  · have hct : cur = t := eq_of_mem_nodup_id hnodup hcur hmemt (by rw [hcid, htidt])
    subst hct
    rw [if_pos (beq_iff_eq.mpr hcid)]
    show ((db.bookings.filter (fun b => b.tournamentId == cur.id)).length : ℤ) +
      clamp cur.manualSoldSlots 0
        (max 0 (max 1 cur.maxSlots - ((tournamentBookings db tid).length : ℤ))) ≤
      max 1 cur.maxSlots
    rw [hcid]
    have hlen : tournamentBookings db tid =
        db.bookings.filter (fun b => b.tournamentId == tid) := rfl
    rw [hlen]
    unfold clamp
    omega
  · rw [if_neg (by simpa using hcid)]
    exact hother cur hcur hcid

/-- One mutating step of the booking route keeps the capacity invariant: the
new bookings table is a sublist of the old one plus the new row for this
tournament, and this tournament had a free slot. -/
theorem capInv_recalc_step (db : DB) (tid : String) (t : TournamentRow) (bk : BookingRow)
    (newBookings : List BookingRow) (wallet' : WalletStoreFile)
    (htid : jsTrim tid = tid) (hne : tid ≠ "")
    (hfind : findTournament db tid = some t)
    (hnodup : (db.tournaments.map (fun x => x.id)).Nodup)
    (hinv : capInv db)
    (hbk : bk.tournamentId = tid)
    (hsub : newBookings.Sublist (db.bookings ++ [bk]))
    (hcap : ((tournamentBookings db tid).length : ℤ) + 1 ≤ max 1 t.maxSlots) :
    capInv (recalcTournamentCounts
      { tournaments := db.tournaments, bookings := newBookings, wallet := wallet' }
      tid) := by
  have hlen : tournamentBookings db tid =
      db.bookings.filter (fun b => b.tournamentId == tid) := rfl
  rw [hlen] at hcap
  apply capInv_recalc _ tid t htid hne
  · exact hfind
  · exact hnodup
  · intro t' ht' hneq
    dsimp only
    have hbase := hinv t' ht'
    have hle : ((newBookings.filter (fun b => b.tournamentId == t'.id)).length : ℤ) ≤
        ((db.bookings.filter (fun b => b.tournamentId == t'.id)).length : ℤ) := by
      have h1 : (newBookings.filter (fun b => b.tournamentId == t'.id)).length ≤
          (((db.bookings ++ [bk]).filter (fun b => b.tournamentId == t'.id)).length) :=
        List.Sublist.length_le (hsub.filter _)
      rw [count_append_other db.bookings bk t'.id
        (fun hh => hneq ((hbk ▸ hh).symm))] at h1
      exact_mod_cast h1
    omega
  · dsimp only
    have hle : ((newBookings.filter (fun b => b.tournamentId == tid)).length : ℤ) ≤
        ((db.bookings.filter (fun b => b.tournamentId == tid)).length : ℤ) + 1 := by
      have h1 : (newBookings.filter (fun b => b.tournamentId == tid)).length ≤
          (((db.bookings ++ [bk]).filter (fun b => b.tournamentId == tid)).length) :=
        List.Sublist.length_le (hsub.filter _)
      rw [count_append_same db.bookings bk tid hbk] at h1
      exact_mod_cast h1
    omega

/-! ## C5: booking capacity is enforced -/

/-- C5: a booking attempt on a tournament that is COMPLETED or whose total
booked count (online bookings plus manual sold slots, capped at max slots)
has reached max slots changes nothing, and when the earlier validations pass
it fails with the TOURNAMENT_FULL code; moreover every booking attempt
preserves the invariant that a tournament's live bookings plus its stored
manual sold slots never exceed its effective max slots. -/
theorem booking_capacity_enforced (db : DB)
    (tournamentIdInput userIdInput usernameInput playerNameInput : String)
    (teamMembersInput : List String) (bookingId ledgerId now : String)
    (t : TournamentRow)
    (htid : jsTrim tournamentIdInput = tournamentIdInput)
    (huid : jsTrim userIdInput = userIdInput)
    (hpn : jsTrim playerNameInput = playerNameInput)
    (hfind : findTournament db tournamentIdInput = some t) :
    ((jsToUpper t.status = "COMPLETED" ∨
        min (max 1 t.maxSlots)
          (((tournamentBookings db tournamentIdInput).length : ℤ) +
            max 0 t.manualSoldSlots) ≥ max 1 t.maxSlots) →
      ((POSTcreateBooking db tournamentIdInput userIdInput usernameInput playerNameInput
          teamMembersInput bookingId ledgerId now).2 = db ∧
       (tournamentIdInput ≠ "" → userIdInput ≠ "" → playerNameInput ≠ "" →
        normalizeTeamMembers teamMembersInput playerNameInput
          (inferTeamSize (if jsToUpper t.matchType = "CS" then "CS" else "BR")
            t.brMode) ≠ [] →
        hasNameConflict (tournamentBookings db tournamentIdInput)
          (((normalizeTeamMembers teamMembersInput playerNameInput
            (inferTeamSize (if jsToUpper t.matchType = "CS" then "CS" else "BR")
              t.brMode)).map normalizeName).filter (fun s => s ≠ "")) "" = false →
        POSTcreateBooking db tournamentIdInput userIdInput usernameInput playerNameInput
          teamMembersInput bookingId ledgerId now =
          (.err 400 "This tournament is full." "TOURNAMENT_FULL", db)))) ∧
    ((db.tournaments.map (fun x => x.id)).Nodup → capInv db →
      capInv (POSTcreateBooking db tournamentIdInput userIdInput usernameInput
        playerNameInput teamMembersInput bookingId ledgerId now).2) := by
  constructor
  · intro hcond
    constructor
    · unfold POSTcreateBooking
      dsimp only
      rw [htid, huid, hpn, hfind]
      dsimp only
      repeat' split
      all_goals rfl
    · intro htne hu hp hmem hconf
      simp only [decide_not] at hconf
      unfold POSTcreateBooking
      dsimp only
      rw [htid, huid, hpn, hfind]
      dsimp only
      rw [if_neg htne, if_neg (not_or.mpr ⟨hu, hp⟩),
        if_neg (fun h => hmem (by simpa using h)), if_neg (by simp [hconf]),
        if_pos hcond]
  · intro hnodup hinv
    unfold POSTcreateBooking
    dsimp only
    rw [htid, huid, hpn, hfind]
    dsimp only
    repeat' split
    all_goals first
      | exact hinv
      | (exact capInv_recalc_step db tournamentIdInput t _ _ _ htid (by assumption) hfind
          hnodup hinv rfl (List.Sublist.refl _)
          (by
            have hnc := (not_or.mp (by assumption :
              ¬(jsToUpper t.status = "COMPLETED" ∨
                min (max 1 t.maxSlots)
                  (((tournamentBookings db tournamentIdInput).length : ℤ) +
                    max 0 t.manualSoldSlots) ≥ max 1 t.maxSlots))).2
            omega))
      | (exact capInv_recalc_step db tournamentIdInput t _ _ _ htid (by assumption) hfind
          hnodup hinv rfl (List.filter_sublist _)
          (by
            have hnc := (not_or.mp (by assumption :
              ¬(jsToUpper t.status = "COMPLETED" ∨
                min (max 1 t.maxSlots)
                  (((tournamentBookings db tournamentIdInput).length : ℤ) +
                    max 0 t.manualSoldSlots) ≥ max 1 t.maxSlots))).2
            omega))

/-- A two-slot tournament that already holds two bookings, for the C5
witness. -/
def fullTournament : TournamentRow :=
  { id := "TC", name := "C", matchType := "CS", brMode := "", status := "FULL",
    maxSlots := 2, manualSoldSlots := 0, bookedCount := 2, entryFee := 0,
    dateTimeMs := none, roomId := "", roomPass := "" }

def fullDB : DB :=
  { tournaments := [fullTournament],
    bookings :=
      [{ id := "c1", tournamentId := "TC", userId := "u1", username := "",
         playerName := "Ann", teamMembers := ["Ann"], teamSize := 1, slotNumber := 1,
         status := "CONFIRMED" },
       { id := "c2", tournamentId := "TC", userId := "u2", username := "",
         playerName := "Ben", teamMembers := ["Ben"], teamSize := 1, slotNumber := 2,
         status := "CONFIRMED" }],
    wallet := emptyWalletStore }

/-- Witness for C5: the third attempt on a two-slot tournament with two live
bookings fails with TOURNAMENT_FULL and changes nothing. -/
theorem booking_capacity_enforced_witness :
    POSTcreateBooking fullDB "TC" "u3" "" "Carl" [] "c3" "l3" "n3" =
      (.err 400 "This tournament is full." "TOURNAMENT_FULL", fullDB) :=
  ((booking_capacity_enforced fullDB "TC" "u3" "" "Carl" [] "c3" "l3" "n3" fullTournament
    (by decide) (by decide) (by decide) (by decide)).1 (by decide)).2
    (by decide) (by decide) (by decide) (by decide) (by decide)

/-! ## C7: slot assignment -/

/-- No two live bookings of one tournament share a slot number. -/
def slotInv (db : DB) : Prop :=
  db.bookings.Pairwise (fun a b =>
    a.tournamentId = b.tournamentId → a.slotNumber ≠ b.slotNumber)

theorem slotInv_append_next (db : DB) (tid : String) (bk : BookingRow)
    (hinv : slotInv db) (htid : bk.tournamentId = tid)
    (hslot : bk.slotNumber = max 1
      ((tournamentBookings db tid).foldl (fun m row => max m row.slotNumber) 0 + 1)) :
    (db.bookings ++ [bk]).Pairwise (fun a b =>
      a.tournamentId = b.tournamentId → a.slotNumber ≠ b.slotNumber) := by
  rw [List.pairwise_append]
  refine ⟨hinv, by simp, ?_⟩
  intro a ha c hc
  rw [List.mem_singleton] at hc
  subst hc
  intro hteq
  have hmem : a ∈ tournamentBookings db tid :=
    List.mem_filter.mpr ⟨ha, by simp [hteq, htid]⟩
  have hle := mem_le_foldl_max_slot (tournamentBookings db tid) 0 a hmem
  omega

set_option maxHeartbeats 1000000 in
/-- C7: every successful createBooking assigns slotNumber equal to one plus
the maximum slot number among the tournament's existing live bookings (a fold
starting at the default 0), and every booking attempt preserves the invariant
that no two live bookings of the same tournament carry the same slot number. -/
theorem booking_slot_assignment (db : DB)
    (tournamentIdInput userIdInput usernameInput playerNameInput : String)
    (teamMembersInput : List String) (bookingId ledgerId now : String) :
    (∀ bk : BookingRow,
      (POSTcreateBooking db tournamentIdInput userIdInput usernameInput playerNameInput
        teamMembersInput bookingId ledgerId now).1 = .ok bk →
      bk.slotNumber =
        (tournamentBookings db (jsTrim tournamentIdInput)).foldl
          (fun m row => max m row.slotNumber) 0 + 1) ∧
    (slotInv db →
      slotInv (POSTcreateBooking db tournamentIdInput userIdInput usernameInput
        playerNameInput teamMembersInput bookingId ledgerId now).2) := by
  constructor
  · intro bk hbk
    unfold POSTcreateBooking at hbk
    dsimp only at hbk
    repeat' split at hbk
    all_goals first
      | exact PostOut.noConfusion hbk
      | (dsimp only at hbk
         injection hbk with h
         subst h
         dsimp only
         have h0 := le_foldl_max_slot (tournamentBookings db (jsTrim tournamentIdInput)) 0
         omega)
  · intro hinv
    unfold POSTcreateBooking
    dsimp only
    repeat' split
    all_goals first
      | exact hinv
      | (unfold slotInv
         rw [bookings_recalcTournamentCounts]
         dsimp only
         first
           | exact slotInv_append_next db (jsTrim tournamentIdInput) _ hinv rfl rfl
           | exact List.Pairwise.sublist (List.filter_sublist _)
               (slotInv_append_next db (jsTrim tournamentIdInput) _ hinv rfl rfl))

/-- A ten-slot open tournament whose single live booking holds slot 4, for
the C7 witness. -/
def slotTournament : TournamentRow :=
  { id := "TS", name := "S", matchType := "CS", brMode := "", status := "OPEN",
    maxSlots := 10, manualSoldSlots := 0, bookedCount := 1, entryFee := 0,
    dateTimeMs := none, roomId := "", roomPass := "" }

def slotDB : DB :=
  { tournaments := [slotTournament],
    bookings :=
      [{ id := "s1", tournamentId := "TS", userId := "u1", username := "",
         playerName := "Ann", teamMembers := ["Ann"], teamSize := 1, slotNumber := 4,
         status := "CONFIRMED" }],
    wallet := emptyWalletStore }

def slotBookingResult : BookingRow :=
  { id := "d1", tournamentId := "TS", userId := "u9", username := "",
    playerName := "Dan", teamMembers := ["Dan"], teamSize := 1, slotNumber := 5,
    status := "CONFIRMED" }

/-- Witness for C7: booking into a tournament whose highest live slot is 4
yields slot 5 = 4 + 1, and the no-duplicate-slot invariant survives the
attempt. -/
theorem booking_slot_assignment_witness :
    slotBookingResult.slotNumber =
      (tournamentBookings slotDB (jsTrim "TS")).foldl
        (fun m row => max m row.slotNumber) 0 + 1 ∧
    slotInv (POSTcreateBooking slotDB "TS" "u9" "" "Dan" [] "d1" "l9" "n9").2 :=
  ⟨(booking_slot_assignment slotDB "TS" "u9" "" "Dan" [] "d1" "l9" "n9").1
      slotBookingResult (by decide),
   (booking_slot_assignment slotDB "TS" "u9" "" "Dan" [] "d1" "l9" "n9").2
     (by unfold slotInv; decide)⟩

end CustomZone
